import Mathlib

/-!
Shallow embedding of the OS Transform server's core transformation logic
(`transform.js`): the bounds validator, the grid-reference codec and the thin
projector adapters.  Strings are modelled by `String` / `List Char`,
JavaScript numbers by `ℚ` (every value arising in the codec is an exact
decimal), and fallible operations by `Option` (the source signals failure by
returning the empty object `{}`).  The geodetic projection is the external
collaborator `proj4`; it is passed in as an abstract function parameter.
-/

namespace OSTransform

/-- A projected (easting, northing) coordinate, in meters. -/
structure ProjectedCoordinate where
  ea : ℚ
  no : ℚ
deriving DecidableEq

/-- A geographic (latitude, longitude) coordinate, in degrees. -/
structure GeographicCoordinate where
  lat : ℚ
  lng : ℚ
deriving DecidableEq

/-- The polymorphic argument of `_checkBounds`: a JavaScript object that may
carry an `ea`/`no` pair, a `lat`/`lng` pair, both, or neither.  A field that
is present on the object (`hasOwnProperty`) is `some`. -/
structure CoordinateFields where
  ea : Option ℚ
  no : Option ℚ
  lat : Option ℚ
  lng : Option ℚ
deriving DecidableEq

/-- The object `{ ea: ..., no: ... }` passed to the validator by the
projected-coordinate operations. -/
def projectedFields (c : ProjectedCoordinate) : CoordinateFields :=
  ⟨some c.ea, some c.no, none, none⟩

/-- The object `{ lat: ..., lng: ... }` passed to the validator by
`fromLatLng`. -/
def geographicFields (c : GeographicCoordinate) : CoordinateFields :=
  ⟨none, none, some c.lat, some c.lng⟩

/-- Result of a validator: `{ valid: bool, message: string }`. -/
structure CheckResult where
  valid : Bool
  message : String
deriving DecidableEq

/-- `options.maxBounds.projected = [[0.0, 0.0], [699999.9, 1299999.9]]`. -/
def maxBoundsProjected : (ℚ × ℚ) × (ℚ × ℚ) := ((0, 0), (699999.9, 1299999.9))

/-- `options.maxBounds.geographic = [[-8.74, 49.84], [1.96, 60.9]]`. -/
def maxBoundsGeographic : (ℚ × ℚ) × (ℚ × ℚ) := ((-8.74, 49.84), (1.96, 60.9))

/-- `OSTransform._checkBounds`: if both `ea` and `no` are present, validate
against the projected rectangle; otherwise, if both `lat` and `lng` are
present, validate against the geographic rectangle; otherwise the input is
trivially valid. -/
def checkBounds (c : CoordinateFields) : CheckResult :=
  let isValid : Bool :=
    match c.ea, c.no with
    | some ea, some no =>
      if ea < maxBoundsProjected.1.1 ∨ ea > maxBoundsProjected.2.1
          ∨ no < maxBoundsProjected.1.2 ∨ no > maxBoundsProjected.2.2 then
        false
      else
        true
    | _, _ =>
      match c.lat, c.lng with
      | some lat, some lng =>
        if lng < maxBoundsGeographic.1.1 ∨ lng > maxBoundsGeographic.2.1
            ∨ lat < maxBoundsGeographic.1.2 ∨ lat > maxBoundsGeographic.2.2 then
          false
        else
          true
      | _, _ => true
  ⟨isValid, if isValid then ("") else ("Coordinates out of range.")⟩

/-- The character class `[0-9]` of the validation regex
(codepoints 48–57). -/
def isDigitChar (c : Char) : Bool := 48 ≤ c.toNat && c.toNat ≤ 57

/-- Numeric value of a decimal digit character. -/
def digitVal (c : Char) : ℕ := c.toNat - 48

/-- Numeric value of a string of decimal digits (the JavaScript
string-to-number coercion, as applied to the all-digit groups of a grid
reference). -/
def digitsToNat (l : List Char) : ℕ := l.foldl (fun a c => 10 * a + digitVal c) 0

/-- Decimal digits of `n`, most significant first; fuel-based so that the
kernel can evaluate it (the fuel `n + 1` always suffices). -/
def natDigitsAux : ℕ → ℕ → List Char → List Char
  | 0, _, acc => acc
  | fuel + 1, n, acc =>
    if n < 10 then Nat.digitChar n :: acc
    else natDigitsAux fuel (n / 10) (Nat.digitChar (n % 10) :: acc)

/-- Decimal representation of a natural number. -/
def natDigits (n : ℕ) : List Char := natDigitsAux (n + 1) n []

/-- Decimal representation of an integer (`String(z)` in JavaScript, for
integral `z`). -/
def intDigits (z : ℤ) : List Char :=
  if z < 0 then '-' :: natDigits z.natAbs else natDigits z.toNat

/-- `s.padStart(5, '0')`. -/
def padStart5 (l : List Char) : List Char := List.replicate (5 - l.length) '0' ++ l

/-- `String.prototype.trim`: drop leading and trailing whitespace. -/
def jsTrim (l : List Char) : List Char :=
  ((l.dropWhile Char.isWhitespace).reverse.dropWhile Char.isWhitespace).reverse

/-- `s.toUpperCase()` (all inputs of interest are ASCII). -/
def jsToUpper (l : List Char) : List Char := l.map Char.toUpper

/-- `s.replace(/ /g, '')`: remove every space character. -/
def jsRemoveSpaces (l : List Char) : List Char := l.filter (fun c => !(c == ' '))

/-- `String.prototype.indexOf` on a string viewed as characters: the index
of the first occurrence, `-1` if absent. -/
def jsIndexOf (l : List Char) (c : Char) : ℤ :=
  if c ∈ l then (l.indexOf c : ℤ) else -1

/-- The 25-letter sequence `'VWXYZQRSTULMNOPFGHJKABCDE'` used by
`fromGridRef` (also the second character class of the validation regex). -/
def gridLetters : List Char :=
  ['V','W','X','Y','Z','Q','R','S','T','U','L','M','N','O','P','F','G','H','J','K','A','B','C','D','E']

/-- The first character class `[THJONS]` of the validation regex. -/
def firstLetters : List Char := ['T','H','J','O','N','S']

/-- Acceptance of the regex tail ` ?[0-9]{1,5} ?[0-9]{1,5}$`: some choice of
an optional leading space, a 1–5 digit group, an optional separating space
and a final 1–5 digit group covers the remaining characters exactly.  The
enumeration of group lengths reproduces the backtracking search of the
regex engine. -/
def tailMatches (s : List Char) : Bool :=
  [0, 1].any fun la =>
    [1, 2, 3, 4, 5].any fun lb =>
      [0, 1].any fun lc =>
        let a := s.take la
        let rest1 := s.drop la
        let b := rest1.take lb
        let rest2 := rest1.drop lb
        let c := rest2.take lc
        let d := rest2.drop lc
        a.length == la && a.all (fun ch => ch == ' ') &&
        b.length == lb && b.all isDigitChar &&
        c.length == lc && c.all (fun ch => ch == ' ') &&
        decide (1 ≤ d.length) && decide (d.length ≤ 5) && d.all isDigitChar

/-- Acceptance of
`/^[THJONS][VWXYZQRSTULMNOPFGHJKABCDE] ?[0-9]{1,5} ?[0-9]{1,5}$/`. -/
def regexAccepts (s : List Char) : Bool :=
  match s with
  | c0 :: c1 :: rest =>
    firstLetters.contains c0 && gridLetters.contains c1 && tailMatches rest
  | _ => false

/-- `OSTransform._validateGridRef`: the regex is applied to the uppercased
input, and additionally the length of the input with spaces removed must be
even. -/
def validateGridRef (g : List Char) : CheckResult :=
  let matched := regexAccepts (jsToUpper g)
  let isValid := ((jsRemoveSpaces g).length % 2 == 0) && matched
  ⟨isValid, if isValid then ("") else ("Invalid grid reference.")⟩

/-- `OSTransform.fromGridRef` on the character list of the input string.
JavaScript's `%` on integral values is the truncated remainder (`Int.tmod`)
and `Math.floor` of an integer quotient is flooring division (`Int.fdiv`). -/
def fromGridRefL (g0 : List Char) : Option ProjectedCoordinate :=
  let g := jsTrim g0
  if !(validateGridRef g).valid then none
  else
    let ref := jsRemoveSpaces (jsToUpper g)
    let idx0 : ℤ := jsIndexOf gridLetters (ref.getD 0 ' ')
    let idx1 : ℤ := jsIndexOf gridLetters (ref.getD 1 ' ')
    let majorEasting : ℤ := idx0.tmod 5 * 500000 - 1000000
    let majorNorthing : ℤ := idx0.fdiv 5 * 500000 - 500000
    let minorEasting : ℤ := idx1.tmod 5 * 100000
    let minorNorthing : ℤ := idx1.fdiv 5 * 100000
    let i : ℕ := (ref.length - 2) / 2
    let m : ℕ := 10 ^ (5 - i)
    let e : ℤ := majorEasting + minorEasting + (digitsToNat ((ref.drop 2).take i)) * m
    let n : ℤ := majorNorthing + minorNorthing + (digitsToNat ((ref.drop 2).drop i)) * m
    some ⟨(e : ℚ), (n : ℚ)⟩

/-- `OSTransform.fromGridRef`. -/
def fromGridRef (s : String) : Option ProjectedCoordinate := fromGridRefL s.data

/-- The components returned by `toGridRef`. -/
structure GridRefResult where
  text : String
  html : String
  letters : String
  eastings : String
  northings : String
deriving DecidableEq

/-- The 13×7 table of 100km tile letter pairs of `toGridRef`; row index `y`
is the northing band, column index `x` the easting band. -/
def prefixes : List (List String) := [
  ["SV", "SW", "SX", "SY", "SZ", "TV", "TW"],
  ["SQ", "SR", "SS", "ST", "SU", "TQ", "TR"],
  ["SL", "SM", "SN", "SO", "SP", "TL", "TM"],
  ["SF", "SG", "SH", "SJ", "SK", "TF", "TG"],
  ["SA", "SB", "SC", "SD", "SE", "TA", "TB"],
  ["NV", "NW", "NX", "NY", "NZ", "OV", "OW"],
  ["NQ", "NR", "NS", "NT", "NU", "OQ", "OR"],
  ["NL", "NM", "NN", "NO", "NP", "OL", "OM"],
  ["NF", "NG", "NH", "NJ", "NK", "OF", "OG"],
  ["NA", "NB", "NC", "ND", "NE", "OA", "OB"],
  ["HV", "HW", "HX", "HY", "HZ", "JV", "JW"],
  ["HQ", "HR", "HS", "HT", "HU", "JQ", "JR"],
  ["HL", "HM", "HN", "HO", "HP", "JL", "JM"]]

/-- The characters of the HTML entity `&thinsp;`. -/
def thinspace : List Char := ['&','t','h','i','n','s','p',';']

/-- The lookup `prefixes[y][x]`, as an optional value. -/
def prefixLookup (y x : ℕ) : Option String :=
  (prefixes[y]?).bind fun row => row[x]?

/-- `OSTransform.toGridRef`.  The tile-letter lookup `prefixes[y][x]` is
modelled as an optional lookup that yields `none` out of table range (the
specified behaviour: treat as invalid input, not a crash); the bounds guard
makes that branch unreachable.  Under the guard the easting and northing are
non-negative, so `Math.floor(v % 100000)` is `⌊v - 100000 * ⌊v / 100000⌋⌋`. -/
def toGridRef (c : ProjectedCoordinate) : Option GridRefResult :=
  if !(checkBounds (projectedFields c)).valid then none
  else
    let x : ℤ := ⌊c.ea / 100000⌋
    let y : ℤ := ⌊c.no / 100000⌋
    match prefixLookup y.toNat x.toNat with
    | none => none
    | some letters =>
      let e : ℤ := ⌊c.ea - 100000 * (x : ℚ)⌋
      let n : ℤ := ⌊c.no - 100000 * (y : ℚ)⌋
      let eStr : List Char := padStart5 (intDigits e)
      let nStr : List Char := padStart5 (intDigits n)
      some {
        text := String.mk (letters.data ++ ' ' :: eStr ++ ' ' :: nStr)
        html := String.mk (letters.data ++ thinspace ++ eStr ++ thinspace ++ nStr)
        letters := letters
        eastings := String.mk eStr
        northings := String.mk nStr }

/-- `Number(x.toFixed(d))`: round to `d` decimal places.  (JavaScript's
`toFixed` rounds ties away from zero; on the exact rational model the
difference matters only at exact midpoints, which no specified behaviour
exercises.) -/
def jsToFixed (x : ℚ) (d : ℕ) : ℚ := (round (x * 10 ^ d) : ℤ) / 10 ^ d

/-- `OSTransform.toLatLng`; `proj` is the external `proj4` collaborator,
mapping `(easting, northing)` to `(longitude, latitude)`. -/
def toLatLng (proj : ℚ × ℚ → ℚ × ℚ) (c : ProjectedCoordinate) (decimals : ℕ) :
    Option GeographicCoordinate :=
  if !(checkBounds (projectedFields c)).valid then none
  else
    let point := proj (c.ea, c.no)
    some ⟨jsToFixed point.2 decimals, jsToFixed point.1 decimals⟩

/-- `OSTransform.fromLatLng`; `proj` is the external `proj4` collaborator,
mapping `(longitude, latitude)` to `(easting, northing)`. -/
def fromLatLng (proj : ℚ × ℚ → ℚ × ℚ) (c : GeographicCoordinate) (decimals : ℕ) :
    Option ProjectedCoordinate :=
  if !(checkBounds (geographicFields c)).valid then none
  else
    let point := proj (c.lng, c.lat)
    some ⟨jsToFixed point.1 decimals, jsToFixed point.2 decimals⟩

/-- `OSTransform.gridRefToLatLng`: decode, then project. -/
def gridRefToLatLng (proj : ℚ × ℚ → ℚ × ℚ) (s : String) (decimals : ℕ) :
    Option GeographicCoordinate :=
  match fromGridRef s with
  | none => none
  | some c => toLatLng proj c decimals

/-- The decode arithmetic exactly as the specification words it (§4.2 steps
3–5), over the normalized reference (uppercased, whitespace stripped): the
positions of the two letters in the 25-letter sequence give the 500km major
and 100km minor tile offsets, and the two equal-length digit groups, scaled
by `10 ^ (5 - i)`, give the offsets within the tile. -/
def specDecode (ref : List Char) : ProjectedCoordinate :=
  let idx1 : ℕ := gridLetters.indexOf (ref.getD 0 ' ')
  let idx2 : ℕ := gridLetters.indexOf (ref.getD 1 ' ')
  let majorEasting : ℤ := (idx1 % 5 : ℕ) * 500000 - 1000000
  let majorNorthing : ℤ := (idx1 / 5 : ℕ) * 500000 - 500000
  let minorEasting : ℤ := (idx2 % 5 : ℕ) * 100000
  let minorNorthing : ℤ := (idx2 / 5 : ℕ) * 100000
  let i : ℕ := (ref.length - 2) / 2
  let m : ℕ := 10 ^ (5 - i)
  ⟨((majorEasting + minorEasting + (digitsToNat ((ref.drop 2).take i)) * m : ℤ) : ℚ),
   ((majorNorthing + minorNorthing + (digitsToNat ((ref.drop 2).drop i)) * m : ℤ) : ℚ)⟩


/-- The 500km major easting offset that `fromGridRef` derives from the
first letter. -/
def majorEastingOf (c : Char) : ℤ := (jsIndexOf gridLetters c).tmod 5 * 500000 - 1000000

/-- The 500km major northing offset that `fromGridRef` derives from the
first letter. -/
def majorNorthingOf (c : Char) : ℤ := (jsIndexOf gridLetters c).fdiv 5 * 500000 - 500000

/-- The 100km minor easting offset that `fromGridRef` derives from the
second letter. -/
def minorEastingOf (c : Char) : ℤ := (jsIndexOf gridLetters c).tmod 5 * 100000

/-- The 100km minor northing offset that `fromGridRef` derives from the
second letter. -/
def minorNorthingOf (c : Char) : ℤ := (jsIndexOf gridLetters c).fdiv 5 * 100000

/-- The decidable conjunction of facts about the 13×7 tile table that the
round-trip proofs use: each entry is present, is a pair of uppercase
non-space letters drawn from the two regex character classes, and decodes
back to the south-west corner of its own 100km tile. -/
def tableFacts : Bool :=
  (List.range 13).all fun y =>
    (List.range 7).all fun x =>
      match prefixLookup y x with
      | none => false
      | some p =>
        match p.data with
        | [c0, c1] =>
          firstLetters.contains c0 && gridLetters.contains c1 &&
          (majorEastingOf c0 + minorEastingOf c1 == 100000 * (x : ℤ)) &&
          (majorNorthingOf c0 + minorNorthingOf c1 == 100000 * (y : ℤ)) &&
          (Char.toUpper c0 == c0) && (Char.toUpper c1 == c1) &&
          !(c0 == ' ') && !(c1 == ' ') && !c0.isWhitespace && !c1.isWhitespace
        | _ => false

/-! ### Basic facts about decimal digit strings -/

theorem digitVal_digitChar {d : ℕ} (h : d < 10) : digitVal (Nat.digitChar d) = d := by
  interval_cases d <;> decide

theorem isDigitChar_digitChar {d : ℕ} (h : d < 10) : isDigitChar (Nat.digitChar d) = true := by
  interval_cases d <;> decide

theorem digitVal_lt {c : Char} (h : isDigitChar c = true) : digitVal c < 10 := by
  simp only [isDigitChar, Bool.and_eq_true, decide_eq_true_eq] at h
  simp only [digitVal]
  omega

theorem digitsToNat_foldl_init (l : List Char) (a0 : ℕ) :
    l.foldl (fun a c => 10 * a + digitVal c) a0 = a0 * 10 ^ l.length + digitsToNat l := by
  induction l generalizing a0 with
  | nil => simp [digitsToNat]
  | cons c t ih =>
    simp only [digitsToNat, List.foldl_cons, List.length_cons]
    rw [ih, ih (10 * 0 + digitVal c)]
    ring

theorem digitsToNat_append (a b : List Char) :
    digitsToNat (a ++ b) = digitsToNat a * 10 ^ b.length + digitsToNat b := by
  simp only [digitsToNat, List.foldl_append]
  rw [digitsToNat_foldl_init]
  rfl

theorem digitsToNat_lt (l : List Char) (h : l.all isDigitChar = true) :
    digitsToNat l < 10 ^ l.length := by
  induction l with
  | nil => simp [digitsToNat]
  | cons c t ih =>
    simp only [List.all_cons, Bool.and_eq_true] at h
    have hc : digitVal c < 10 := digitVal_lt h.1
    have ht := ih h.2
    simp only [digitsToNat, List.foldl_cons, List.length_cons]
    rw [show (10 * 0 + digitVal c) = digitVal c by ring, digitsToNat_foldl_init]
    have : digitVal c * 10 ^ t.length + digitsToNat t < 10 * 10 ^ t.length := by
      calc digitVal c * 10 ^ t.length + digitsToNat t
          < digitVal c * 10 ^ t.length + 10 ^ t.length := by omega
        _ = (digitVal c + 1) * 10 ^ t.length := by ring
        _ ≤ 10 * 10 ^ t.length := by
            have : digitVal c + 1 ≤ 10 := by omega
            exact Nat.mul_le_mul_right _ this
    calc digitVal c * 10 ^ t.length + digitsToNat t < 10 * 10 ^ t.length := this
      _ = 10 ^ (t.length + 1) := by ring

theorem digitsToNat_replicate_zero (k : ℕ) (l : List Char) :
    digitsToNat (List.replicate k '0' ++ l) = digitsToNat l := by
  rw [digitsToNat_append]
  have : digitsToNat (List.replicate k '0') = 0 := by
    induction k with
    | zero => simp [digitsToNat]
    | succ k ih =>
      simp only [List.replicate_succ, digitsToNat, List.foldl_cons] at ih ⊢
      simpa [digitVal] using ih
  rw [this]
  simp

/-! ### The decimal printer `natDigits` -/

theorem natDigitsAux_acc (fuel : ℕ) : ∀ (n : ℕ) (acc : List Char),
    natDigitsAux fuel n acc = natDigitsAux fuel n [] ++ acc := by
  induction fuel with
  | zero => intro n acc; simp [natDigitsAux]
  | succ fuel ih =>
    intro n acc
    by_cases h : n < 10
    · simp [natDigitsAux, h]
    · simp only [natDigitsAux, if_neg h]
      rw [ih (n / 10), ih (n / 10) [Nat.digitChar (n % 10)]]
      simp

theorem natDigitsAux_irrel (fuel1 fuel2 n : ℕ) (h1 : n < fuel1) (h2 : n < fuel2) :
    natDigitsAux fuel1 n [] = natDigitsAux fuel2 n [] := by
  induction n using Nat.strong_induction_on generalizing fuel1 fuel2 with
  | _ n ih =>
    match fuel1, fuel2 with
    | f1 + 1, f2 + 1 =>
      by_cases h : n < 10
      · simp [natDigitsAux, h]
      · simp only [natDigitsAux, if_neg h]
        rw [natDigitsAux_acc f1, natDigitsAux_acc f2]
        rw [ih (n / 10) (by omega) f1 f2 (by omega) (by omega)]

theorem natDigits_unfold (n : ℕ) :
    natDigits n = if n < 10 then [Nat.digitChar n]
      else natDigits (n / 10) ++ [Nat.digitChar (n % 10)] := by
  by_cases h : n < 10
  · simp [natDigits, natDigitsAux, h]
  · rw [if_neg h]
    conv_lhs => rw [natDigits]
    conv_lhs => rw [natDigitsAux]
    rw [if_neg h, natDigitsAux_acc n]
    rw [natDigitsAux_irrel n (n / 10 + 1) (n / 10) (by omega) (by omega)]
    rfl

theorem natDigits_all_digits (n : ℕ) : (natDigits n).all isDigitChar = true := by
  induction n using Nat.strong_induction_on with
  | _ n ih =>
    rw [natDigits_unfold]
    by_cases h : n < 10
    · simp [h, isDigitChar_digitChar h]
    · rw [if_neg h, List.all_append]
      refine Bool.and_eq_true_iff.mpr ⟨ih (n / 10) (by omega), ?_⟩
      simp [isDigitChar_digitChar (Nat.mod_lt n (by omega))]

theorem digitsToNat_natDigits (n : ℕ) : digitsToNat (natDigits n) = n := by
  induction n using Nat.strong_induction_on with
  | _ n ih =>
    rw [natDigits_unfold]
    by_cases h : n < 10
    · simp [h, digitsToNat, digitVal_digitChar h]
    · rw [if_neg h, digitsToNat_append, ih (n / 10) (by omega)]
      have hm : digitVal (Nat.digitChar (n % 10)) = n % 10 :=
        digitVal_digitChar (Nat.mod_lt n (by omega))
      simp only [List.length_cons, List.length_nil, pow_one, digitsToNat, List.foldl_cons,
        List.foldl_nil, Nat.mul_zero, Nat.zero_add, hm]
      omega

theorem natDigits_ne_nil (n : ℕ) : natDigits n ≠ [] := by
  rw [natDigits_unfold]
  by_cases h : n < 10
  · simp [h]
  · simp [h]

theorem natDigits_length_le (k : ℕ) : ∀ n : ℕ, n < 10 ^ k → 0 < k →
    (natDigits n).length ≤ k := by
  induction k with
  | zero => intro n _ h; omega
  | succ k ih =>
    intro n hn _
    rw [natDigits_unfold]
    by_cases h : n < 10
    · simp only [if_pos h, List.length_cons, List.length_nil]
      omega
    · rw [if_neg h, List.length_append]
      have hk : 0 < k := by
        by_contra hk0
        have : k = 0 := by omega
        subst this
        simp at hn
        omega
      have := ih (n / 10) (by
        have : n < 10 ^ k * 10 := by rw [mul_comm]; simpa [pow_succ, mul_comm] using hn
        omega) hk
      simp only [List.length_cons, List.length_nil]
      omega

/-- A string of decimal digits is determined by its length and its value. -/
theorem digits_unique : ∀ (l1 l2 : List Char), l1.all isDigitChar = true →
    l2.all isDigitChar = true → l1.length = l2.length →
    digitsToNat l1 = digitsToNat l2 → l1 = l2 := by
  intro l1
  induction l1 using List.reverseRecOn with
  | nil =>
    intro l2 _ _ hlen _
    exact (List.eq_nil_of_length_eq_zero hlen.symm).symm
  | append_singleton t1 c1 ih =>
    intro l2 h1 h2 hlen hval
    rcases (List.eq_nil_or_concat l2) with rfl | ⟨t2, c2, rfl⟩
    · simp at hlen
    · simp only [List.concat_eq_append] at h2 hlen hval ⊢
      simp only [List.all_append, List.all_cons, List.all_nil, Bool.and_eq_true,
        Bool.and_true] at h1 h2
      simp only [List.length_append, List.length_cons, List.length_nil] at hlen
      rw [digitsToNat_append, digitsToNat_append] at hval
      have hv1 : digitVal c1 < 10 := digitVal_lt h1.2
      have hv2 : digitVal c2 < 10 := digitVal_lt h2.2
      have hd1 : digitsToNat [c1] = digitVal c1 := by simp [digitsToNat]
      have hd2 : digitsToNat [c2] = digitVal c2 := by simp [digitsToNat]
      rw [hd1, hd2] at hval
      simp only [List.length_cons, List.length_nil, pow_one] at hval
      have heq : digitsToNat t1 = digitsToNat t2 ∧ digitVal c1 = digitVal c2 := by
        constructor <;> omega
      have hc : c1 = c2 := by
        have e1 : 48 ≤ c1.toNat ∧ c1.toNat ≤ 57 := by
          have := h1.2
          simp only [isDigitChar, Bool.and_eq_true, decide_eq_true_eq] at this
          exact this
        have e2 : 48 ≤ c2.toNat ∧ c2.toNat ≤ 57 := by
          have := h2.2
          simp only [isDigitChar, Bool.and_eq_true, decide_eq_true_eq] at this
          exact this
        have htn : c1.toNat = c2.toNat := by
          have := heq.2
          simp only [digitVal] at this
          omega
        calc c1 = Char.ofNat c1.toNat := (Char.ofNat_toNat c1).symm
          _ = Char.ofNat c2.toNat := by rw [htn]
          _ = c2 := Char.ofNat_toNat c2
      rw [ih t2 h1.1 h2.1 (by omega) heq.1, hc]

/-! ### Padding -/

theorem padStart5_length (l : List Char) (h : l.length ≤ 5) :
    (padStart5 l).length = 5 := by
  simp only [padStart5, List.length_append, List.length_replicate]
  omega

theorem padStart5_all_digits (l : List Char) (h : l.all isDigitChar = true) :
    (padStart5 l).all isDigitChar = true := by
  simp only [padStart5, List.all_append, Bool.and_eq_true]
  refine ⟨?_, h⟩
  rw [List.all_eq_true]
  intro c hc
  rw [List.eq_of_mem_replicate hc]
  decide

theorem digitsToNat_padStart5 (l : List Char) :
    digitsToNat (padStart5 l) = digitsToNat l :=
  digitsToNat_replicate_zero _ l

/-- The canonical 5-character digit group of a value below `10 ^ 5`. -/
theorem padStart5_natDigits_spec (v : ℕ) (hv : v < 100000) :
    (padStart5 (natDigits v)).length = 5 ∧
    (padStart5 (natDigits v)).all isDigitChar = true ∧
    digitsToNat (padStart5 (natDigits v)) = v := by
  have hlen : (natDigits v).length ≤ 5 := natDigits_length_le 5 v hv (by omega)
  exact ⟨padStart5_length _ hlen, padStart5_all_digits _ (natDigits_all_digits v),
    by rw [digitsToNat_padStart5, digitsToNat_natDigits]⟩

/-! ### Character facts -/

theorem toUpper_of_isDigitChar {c : Char} (h : isDigitChar c = true) :
    Char.toUpper c = c := by
  simp only [isDigitChar, Bool.and_eq_true, decide_eq_true_eq] at h
  simp only [Char.toUpper, Char.toNat] at *
  rw [if_neg]
  omega

theorem beq_space_eq_false_of_isDigitChar {c : Char} (h : isDigitChar c = true) :
    (c == ' ') = false := by
  simp only [isDigitChar, Bool.and_eq_true, decide_eq_true_eq] at h
  rw [beq_eq_false_iff_ne]
  intro hc
  subst hc
  revert h
  decide

theorem isWhitespace_eq_false_of_isDigitChar {c : Char} (h : isDigitChar c = true) :
    c.isWhitespace = false := by
  simp only [isDigitChar, Bool.and_eq_true, decide_eq_true_eq] at h
  simp only [Char.isWhitespace, Bool.or_eq_false_iff, decide_eq_false_iff_not]
  refine ⟨⟨⟨?_, ?_⟩, ?_⟩, ?_⟩ <;> intro hc <;> subst hc <;> revert h <;> decide

theorem firstLetters_subset_gridLetters : ∀ c ∈ firstLetters, c ∈ gridLetters := by decide

theorem gridLetters_toUpper : ∀ c ∈ gridLetters, Char.toUpper c = c := by decide

theorem gridLetters_not_space : ∀ c ∈ gridLetters, (c == ' ') = false := by decide

theorem gridLetters_not_ws : ∀ c ∈ gridLetters, c.isWhitespace = false := by decide

theorem firstLetters_not_ws : ∀ c ∈ firstLetters, c.isWhitespace = false := by decide

theorem tableFacts_true : tableFacts = true := by decide

theorem firstLetters_toUpper : ∀ c ∈ firstLetters, Char.toUpper c = c := by decide

theorem firstLetters_not_space : ∀ c ∈ firstLetters, (c == ' ') = false := by decide

theorem contains_of_mem {l : List Char} {c : Char} (h : c ∈ l) : l.contains c = true :=
  List.elem_iff.mpr h

/-! ### Helpers about the string normalizations -/

theorem jsToUpper_of_digits (l : List Char) (h : l.all isDigitChar = true) :
    jsToUpper l = l := by
  induction l with
  | nil => rfl
  | cons c t ih =>
    rw [List.all_cons, Bool.and_eq_true] at h
    simp only [jsToUpper, List.map_cons] at ih ⊢
    rw [toUpper_of_isDigitChar h.1, ih h.2]

theorem jsRemoveSpaces_of_digits (l : List Char) (h : l.all isDigitChar = true) :
    jsRemoveSpaces l = l := by
  rw [List.all_eq_true] at h
  refine List.filter_eq_self.mpr (fun c hc => ?_)
  rw [Bool.not_eq_true', beq_space_eq_false_of_isDigitChar (h c hc)]

theorem jsRemoveSpaces_of_spaces (l : List Char) (h : l.all (fun ch => ch == ' ') = true) :
    jsRemoveSpaces l = [] := by
  rw [List.all_eq_true] at h
  refine List.filter_eq_nil_iff.mpr (fun c hc => ?_)
  rw [h c hc]
  decide

theorem jsRemoveSpaces_append (a b : List Char) :
    jsRemoveSpaces (a ++ b) = jsRemoveSpaces a ++ jsRemoveSpaces b :=
  List.filter_append _ _

theorem jsRemoveSpaces_cons_of_not_space (c : Char) (l : List Char) (h : (c == ' ') = false) :
    jsRemoveSpaces (c :: l) = c :: jsRemoveSpaces l := by
  simp [jsRemoveSpaces, List.filter_cons, h]

/-- A list with a non-whitespace head and a non-whitespace last element is
left unchanged by `trim`. -/
theorem jsTrim_sandwich (a : Char) (mid : List Char) (b : Char)
    (ha : a.isWhitespace = false) (hb : b.isWhitespace = false) :
    jsTrim (a :: (mid ++ [b])) = a :: (mid ++ [b]) := by
  simp only [jsTrim]
  rw [List.dropWhile_cons, if_neg (by simp [ha])]
  rw [show (a :: (mid ++ [b])).reverse = b :: (mid.reverse ++ [a]) by simp]
  rw [List.dropWhile_cons, if_neg (by simp [hb])]
  simp

/-! ### The tile table -/

theorem prefixLookup_props (y x : ℕ) (hy : y < 13) (hx : x < 7) :
    ∃ (p : String) (c0 c1 : Char), prefixLookup y x = some p ∧ p.data = [c0, c1] ∧
      c0 ∈ firstLetters ∧ c1 ∈ gridLetters ∧
      majorEastingOf c0 + minorEastingOf c1 = 100000 * (x : ℤ) ∧
      majorNorthingOf c0 + minorNorthingOf c1 = 100000 * (y : ℤ) := by
  have h := tableFacts_true
  rw [tableFacts, List.all_eq_true] at h
  have hy' := h y (List.mem_range.mpr hy)
  rw [List.all_eq_true] at hy'
  have hx' := hy' x (List.mem_range.mpr hx)
  cases hq : prefixLookup y x with
  | none => rw [hq] at hx'; simp at hx'
  | some p =>
    simp only [hq] at hx'
    split at hx'
    next c0 c1 heq =>
      refine ⟨p, c0, c1, rfl, heq, ?_⟩
      simp only [Bool.and_eq_true] at hx'
      obtain ⟨⟨⟨⟨⟨⟨⟨⟨⟨h1, h2⟩, h3⟩, h4⟩, _⟩, _⟩, _⟩, _⟩, _⟩, _⟩ := hx'
      exact ⟨List.elem_iff.mp h1, List.elem_iff.mp h2, beq_iff_eq.mp h3, beq_iff_eq.mp h4⟩
    next =>
      simp at hx'

/-! ### Acceptance of canonical reference texts -/

theorem tailMatches_canonical (g1 g2 : List Char)
    (h1 : g1.all isDigitChar = true) (h2 : g2.all isDigitChar = true)
    (hk1 : 1 ≤ g1.length) (hk5 : g1.length ≤ 5)
    (hk1' : 1 ≤ g2.length) (hk5' : g2.length ≤ 5) :
    tailMatches (' ' :: (g1 ++ ' ' :: g2)) = true := by
  rw [tailMatches, List.any_eq_true]
  refine ⟨1, by decide, ?_⟩
  rw [List.any_eq_true]
  refine ⟨g1.length, by simp [List.mem_cons]; omega, ?_⟩
  rw [List.any_eq_true]
  refine ⟨1, by decide, ?_⟩
  have t1 : (' ' :: (g1 ++ ' ' :: g2)).take 1 = [' '] := rfl
  have d1 : (' ' :: (g1 ++ ' ' :: g2)).drop 1 = g1 ++ ' ' :: g2 := rfl
  have t2 : (g1 ++ ' ' :: g2).take g1.length = g1 := List.take_left g1 (' ' :: g2)
  have d2 : (g1 ++ ' ' :: g2).drop g1.length = ' ' :: g2 := List.drop_left g1 (' ' :: g2)
  simp only [t1, d1, t2, d2, List.take_succ_cons, List.take_zero, List.drop_succ_cons,
    List.drop_zero]
  simp [h1, h2]
  omega

theorem validateGridRef_canonical (c0 c1 : Char) (g1 g2 : List Char)
    (hc0 : c0 ∈ firstLetters) (hc1 : c1 ∈ gridLetters)
    (h1 : g1.all isDigitChar = true) (h2 : g2.all isDigitChar = true)
    (hk1 : 1 ≤ g1.length) (hk5 : g1.length ≤ 5)
    (hk1' : 1 ≤ g2.length) (hk5' : g2.length ≤ 5)
    (heven : (g1.length + g2.length) % 2 = 0) :
    (validateGridRef (c0 :: c1 :: ' ' :: (g1 ++ ' ' :: g2))).valid = true := by
  have hupper : jsToUpper (c0 :: c1 :: ' ' :: (g1 ++ ' ' :: g2)) =
      c0 :: c1 :: ' ' :: (g1 ++ ' ' :: g2) := by
    simp only [jsToUpper, List.map_cons, List.map_append]
    rw [firstLetters_toUpper c0 hc0, gridLetters_toUpper c1 hc1]
    have : Char.toUpper ' ' = ' ' := by decide
    rw [this]
    have e1 : List.map Char.toUpper g1 = g1 := jsToUpper_of_digits g1 h1
    have e2 : List.map Char.toUpper g2 = g2 := jsToUpper_of_digits g2 h2
    rw [e1, e2]
  have hstrip : jsRemoveSpaces (c0 :: c1 :: ' ' :: (g1 ++ ' ' :: g2)) =
      c0 :: c1 :: (g1 ++ g2) := by
    rw [jsRemoveSpaces_cons_of_not_space c0 _ (firstLetters_not_space c0 hc0),
      jsRemoveSpaces_cons_of_not_space c1 _ (gridLetters_not_space c1 hc1)]
    have : jsRemoveSpaces (' ' :: (g1 ++ ' ' :: g2)) = g1 ++ g2 := by
      have hs : jsRemoveSpaces [' '] = [] := by decide
      have h' : (' ' :: (g1 ++ ' ' :: g2)) = ([' '] ++ g1) ++ ([' '] ++ g2) := by simp
      rw [h']
      simp only [jsRemoveSpaces_append, hs, jsRemoveSpaces_of_digits g1 h1,
        jsRemoveSpaces_of_digits g2 h2]
      simp
    rw [this]
  rw [validateGridRef]
  simp only [hupper, hstrip]
  have hregex : regexAccepts (c0 :: c1 :: ' ' :: (g1 ++ ' ' :: g2)) = true := by
    rw [regexAccepts]
    rw [contains_of_mem hc0, contains_of_mem hc1,
      tailMatches_canonical g1 g2 h1 h2 hk1 hk5 hk1' hk5']
    rfl
  rw [hregex]
  simp only [List.length_cons, List.length_append, Bool.and_true]
  have : (g1.length + g2.length + 1 + 1) % 2 = 0 := by omega
  simpa using this

/-! ### Unfolding `fromGridRef` on accepted input -/

theorem fromGridRefL_decode (g0 : List Char) (c0 c1 : Char) (ds : List Char)
    (hv : (validateGridRef (jsTrim g0)).valid = true)
    (href : jsRemoveSpaces (jsToUpper (jsTrim g0)) = c0 :: c1 :: ds) :
    fromGridRefL g0 = some
      ⟨((majorEastingOf c0 + minorEastingOf c1 +
          (digitsToNat (ds.take (ds.length / 2))) * 10 ^ (5 - ds.length / 2) : ℤ) : ℚ),
       ((majorNorthingOf c0 + minorNorthingOf c1 +
          (digitsToNat (ds.drop (ds.length / 2))) * 10 ^ (5 - ds.length / 2) : ℤ) : ℚ)⟩ := by
  have hg0 : (c0 :: c1 :: ds).getD 0 ' ' = c0 := rfl
  have hg1 : (c0 :: c1 :: ds).getD 1 ' ' = c1 := rfl
  have hdrop : (c0 :: c1 :: ds).drop 2 = ds := rfl
  have hlen : (c0 :: c1 :: ds).length - 2 = ds.length := by
    simp [List.length_cons]
  simp only [fromGridRefL, hv, Bool.not_true, Bool.false_eq_true, if_false, href,
    hg0, hg1, hdrop, hlen, majorEastingOf, minorEastingOf, majorNorthingOf,
    minorNorthingOf]
  norm_cast

/-! ### Inverting the format check -/

theorem validateGridRef_inversion (g : List Char)
    (h : (validateGridRef g).valid = true) :
    ∃ (c0 c1 : Char) (b d : List Char),
      jsRemoveSpaces (jsToUpper g) = c0 :: c1 :: (b ++ d) ∧
      c0 ∈ firstLetters ∧ c1 ∈ gridLetters ∧
      b.all isDigitChar = true ∧ d.all isDigitChar = true ∧
      1 ≤ b.length ∧ b.length ≤ 5 ∧ 1 ≤ d.length ∧ d.length ≤ 5 := by
  rw [validateGridRef] at h
  simp only [Bool.and_eq_true] at h
  obtain ⟨heven, hmatch⟩ := h
  rcases hu : jsToUpper g with _ | ⟨c0, _ | ⟨c1, rest⟩⟩
  · rw [hu] at hmatch; simp [regexAccepts] at hmatch
  · rw [hu] at hmatch; simp [regexAccepts] at hmatch
  · rw [hu] at hmatch
    rw [regexAccepts] at hmatch
    simp only [Bool.and_eq_true] at hmatch
    obtain ⟨⟨hc0, hc1⟩, htail⟩ := hmatch
    rw [tailMatches, List.any_eq_true] at htail
    obtain ⟨la, hla, htail⟩ := htail
    rw [List.any_eq_true] at htail
    obtain ⟨lb, hlb, htail⟩ := htail
    rw [List.any_eq_true] at htail
    obtain ⟨lc, hlc, htail⟩ := htail
    simp only [Bool.and_eq_true] at htail
    obtain ⟨⟨⟨⟨⟨⟨⟨⟨hA1, hA2⟩, hA3⟩, hA4⟩, hA5⟩, hA6⟩, hA7⟩, hA8⟩, hA9⟩ := htail
    refine ⟨c0, c1, (rest.drop la).take lb, ((rest.drop la).drop lb).drop lc,
      ?_, List.elem_iff.mp hc0, List.elem_iff.mp hc1, hA4, hA9, ?_, ?_,
      of_decide_eq_true hA7, of_decide_eq_true hA8⟩
    · have hsplit : rest = rest.take la ++
          ((rest.drop la).take lb ++
            (((rest.drop la).drop lb).take lc ++ ((rest.drop la).drop lb).drop lc)) := by
        rw [List.take_append_drop, List.take_append_drop, List.take_append_drop]
      rw [jsRemoveSpaces_cons_of_not_space c0 _ (firstLetters_not_space c0
          (List.elem_iff.mp hc0)),
        jsRemoveSpaces_cons_of_not_space c1 _ (gridLetters_not_space c1
          (List.elem_iff.mp hc1))]
      conv_lhs => rw [hsplit]
      simp only [jsRemoveSpaces_append]
      rw [jsRemoveSpaces_of_spaces _ hA2, jsRemoveSpaces_of_spaces _ hA6,
        jsRemoveSpaces_of_digits _ hA4, jsRemoveSpaces_of_digits _ hA9]
      simp
    · have hleq : ((rest.drop la).take lb).length = lb := beq_iff_eq.mp hA3
      have hlb5 : lb = 1 ∨ lb = 2 ∨ lb = 3 ∨ lb = 4 ∨ lb = 5 := by
        simpa [List.mem_cons] using hlb
      omega
    · have hleq : ((rest.drop la).take lb).length = lb := beq_iff_eq.mp hA3
      have hlb5 : lb = 1 ∨ lb = 2 ∨ lb = 3 ∨ lb = 4 ∨ lb = 5 := by
        simpa [List.mem_cons] using hlb
      omega

/-! ### Rational floor computations -/

theorem floor_div_100000 (a : ℕ) : ⌊(a : ℚ) / 100000⌋ = ((a / 100000 : ℕ) : ℤ) := by
  rw [Int.floor_eq_iff]
  constructor
  · rw [le_div_iff (by norm_num : (0:ℚ) < 100000)]
    push_cast
    exact_mod_cast Nat.div_mul_le_self a 100000
  · rw [div_lt_iff (by norm_num : (0:ℚ) < 100000)]
    have h : a < (a / 100000 + 1) * 100000 := by omega
    push_cast
    exact_mod_cast h

theorem floor_rem_100000 (a : ℕ) :
    ⌊(a : ℚ) - 100000 * (((a / 100000 : ℕ) : ℤ) : ℚ)⌋ = ((a % 100000 : ℕ) : ℤ) := by
  have hd : 100000 * (a / 100000) + a % 100000 = a := Nat.div_add_mod a 100000
  have hq : (100000 : ℚ) * ((a / 100000 : ℕ) : ℚ) + ((a % 100000 : ℕ) : ℚ) = (a : ℚ) := by
    exact_mod_cast hd
  have hcast : (((a / 100000 : ℕ) : ℤ) : ℚ) = ((a / 100000 : ℕ) : ℚ) := by
    norm_cast
  rw [hcast]
  have h : (a : ℚ) - 100000 * ((a / 100000 : ℕ) : ℚ) = ((a % 100000 : ℕ) : ℚ) := by
    linarith
  rw [h, Int.floor_natCast]

theorem intDigits_natCast (n : ℕ) : intDigits ((n : ℕ) : ℤ) = natDigits n := by
  rw [intDigits, if_neg (by simp [Int.natCast_nonneg, not_lt])]
  simp

/-! ### The bounds validator -/

theorem checkBounds_projected_iff (ea no : ℚ) :
    (checkBounds ⟨some ea, some no, none, none⟩).valid = true ↔
      0 ≤ ea ∧ ea ≤ 699999.9 ∧ 0 ≤ no ∧ no ≤ 1299999.9 := by
  simp only [checkBounds, maxBoundsProjected]
  split
  next h =>
    simp only [Bool.false_eq_true, false_iff]
    rintro ⟨h1, h2, h3, h4⟩
    rcases h with h | h | h | h <;> linarith
  next h =>
    push_neg at h
    simp only [true_iff]
    exact ⟨h.1, h.2.1, h.2.2.1, h.2.2.2⟩

theorem checkBounds_geographic_iff (lat lng : ℚ) :
    (checkBounds ⟨none, none, some lat, some lng⟩).valid = true ↔
      -8.74 ≤ lng ∧ lng ≤ 1.96 ∧ 49.84 ≤ lat ∧ lat ≤ 60.9 := by
  simp only [checkBounds, maxBoundsGeographic]
  split
  next h =>
    simp only [Bool.false_eq_true, false_iff]
    rintro ⟨h1, h2, h3, h4⟩
    rcases h with h | h | h | h <;> linarith
  next h =>
    push_neg at h
    simp only [true_iff]
    exact ⟨h.1, h.2.1, h.2.2.1, h.2.2.2⟩

/-! ### Unfolding `toGridRef` on whole-meter coordinates -/

theorem toGridRef_encode (E N : ℕ) (hE : E < 700000) (hN : N < 1300000)
    (p : String) (hp : prefixLookup (N / 100000) (E / 100000) = some p) :
    toGridRef ⟨(E : ℚ), (N : ℚ)⟩ = some
      ⟨String.mk (p.data ++ ' ' :: padStart5 (natDigits (E % 100000)) ++
          ' ' :: padStart5 (natDigits (N % 100000))),
       String.mk (p.data ++ thinspace ++ padStart5 (natDigits (E % 100000)) ++
          thinspace ++ padStart5 (natDigits (N % 100000))),
       p,
       String.mk (padStart5 (natDigits (E % 100000))),
       String.mk (padStart5 (natDigits (N % 100000)))⟩ := by
  have hb : (checkBounds (projectedFields ⟨(E : ℚ), (N : ℚ)⟩)).valid = true := by
    rw [projectedFields]
    rw [checkBounds_projected_iff]
    refine ⟨by positivity, ?_, by positivity, ?_⟩
    · have h1 : (E : ℚ) ≤ 699999 := by exact_mod_cast Nat.lt_succ_iff.mp hE
      linarith [show (699999 : ℚ) ≤ 699999.9 by norm_num]
    · have h1 : (N : ℚ) ≤ 1299999 := by exact_mod_cast Nat.lt_succ_iff.mp hN
      linarith [show (1299999 : ℚ) ≤ 1299999.9 by norm_num]
  simp only [toGridRef, hb, Bool.not_true, Bool.false_eq_true, if_false,
    floor_div_100000, Int.toNat_natCast, hp, floor_rem_100000, intDigits_natCast]

/-! ### Decoding a canonical reference text -/

theorem jsToUpper_canonical (c0 c1 : Char) (g1 g2 : List Char)
    (hc0 : c0 ∈ firstLetters) (hc1 : c1 ∈ gridLetters)
    (h1 : g1.all isDigitChar = true) (h2 : g2.all isDigitChar = true) :
    jsToUpper (c0 :: c1 :: ' ' :: (g1 ++ ' ' :: g2)) =
      c0 :: c1 :: ' ' :: (g1 ++ ' ' :: g2) := by
  simp only [jsToUpper, List.map_cons, List.map_append]
  rw [firstLetters_toUpper c0 hc0, gridLetters_toUpper c1 hc1]
  rw [show Char.toUpper ' ' = ' ' from by decide]
  have e1 : List.map Char.toUpper g1 = g1 := jsToUpper_of_digits g1 h1
  have e2 : List.map Char.toUpper g2 = g2 := jsToUpper_of_digits g2 h2
  rw [e1, e2]

theorem jsRemoveSpaces_canonical (c0 c1 : Char) (g1 g2 : List Char)
    (hc0 : c0 ∈ firstLetters) (hc1 : c1 ∈ gridLetters)
    (h1 : g1.all isDigitChar = true) (h2 : g2.all isDigitChar = true) :
    jsRemoveSpaces (c0 :: c1 :: ' ' :: (g1 ++ ' ' :: g2)) = c0 :: c1 :: (g1 ++ g2) := by
  rw [jsRemoveSpaces_cons_of_not_space c0 _ (firstLetters_not_space c0 hc0),
    jsRemoveSpaces_cons_of_not_space c1 _ (gridLetters_not_space c1 hc1)]
  have hs : jsRemoveSpaces [' '] = [] := by decide
  have h' : (' ' :: (g1 ++ ' ' :: g2)) = ([' '] ++ g1) ++ ([' '] ++ g2) := by simp
  rw [h']
  simp only [jsRemoveSpaces_append, hs, jsRemoveSpaces_of_digits g1 h1,
    jsRemoveSpaces_of_digits g2 h2]
  simp

theorem jsTrim_canonical (c0 c1 : Char) (g1 g2 : List Char)
    (hc0 : c0 ∈ firstLetters) (h2 : g2.all isDigitChar = true)
    (hk1' : 1 ≤ g2.length) :
    jsTrim (c0 :: c1 :: ' ' :: (g1 ++ ' ' :: g2)) =
      c0 :: c1 :: ' ' :: (g1 ++ ' ' :: g2) := by
  have hne : g2 ≠ [] := by
    intro h
    rw [h] at hk1'
    simp at hk1'
  rcases List.eq_nil_or_concat g2 with h | ⟨g2t, d2, hg2⟩
  · exact absurd h hne
  · have hshape : c0 :: c1 :: ' ' :: (g1 ++ ' ' :: g2) =
        c0 :: ((c1 :: ' ' :: (g1 ++ ' ' :: g2t)) ++ [d2]) := by
      rw [hg2]
      simp
    have hd2 : isDigitChar d2 = true := by
      rw [hg2] at h2
      simp only [List.concat_eq_append] at h2
      rw [List.all_append, List.all_cons, List.all_nil] at h2
      simp only [Bool.and_eq_true, Bool.and_true] at h2
      exact h2.2
    rw [hshape]
    exact jsTrim_sandwich c0 _ d2 (firstLetters_not_ws c0 hc0)
      (isWhitespace_eq_false_of_isDigitChar hd2)

theorem fromGridRef_canonical (c0 c1 : Char) (g1 g2 : List Char)
    (hc0 : c0 ∈ firstLetters) (hc1 : c1 ∈ gridLetters)
    (h1 : g1.all isDigitChar = true) (h2 : g2.all isDigitChar = true)
    (hk : g1.length = g2.length) (hk1 : 1 ≤ g1.length) (hk5 : g1.length ≤ 5) :
    fromGridRefL (c0 :: c1 :: ' ' :: (g1 ++ ' ' :: g2)) = some
      ⟨((majorEastingOf c0 + minorEastingOf c1 +
          (digitsToNat g1) * 10 ^ (5 - g1.length) : ℤ) : ℚ),
       ((majorNorthingOf c0 + minorNorthingOf c1 +
          (digitsToNat g2) * 10 ^ (5 - g1.length) : ℤ) : ℚ)⟩ := by
  have htrim := jsTrim_canonical c0 c1 g1 g2 hc0 h2 (by omega)
  have hv : (validateGridRef (jsTrim (c0 :: c1 :: ' ' :: (g1 ++ ' ' :: g2)))).valid = true := by
    rw [htrim]
    exact validateGridRef_canonical c0 c1 g1 g2 hc0 hc1 h1 h2 hk1 hk5 (by omega) (by omega)
      (by omega)
  have href : jsRemoveSpaces (jsToUpper (jsTrim (c0 :: c1 :: ' ' :: (g1 ++ ' ' :: g2)))) =
      c0 :: c1 :: (g1 ++ g2) := by
    rw [htrim, jsToUpper_canonical c0 c1 g1 g2 hc0 hc1 h1 h2,
      jsRemoveSpaces_canonical c0 c1 g1 g2 hc0 hc1 h1 h2]
  have hds : (g1 ++ g2).length / 2 = g1.length := by
    rw [List.length_append]
    omega
  rw [fromGridRefL_decode _ c0 c1 (g1 ++ g2) hv href]
  rw [hds, List.take_left g1 g2, List.drop_left g1 g2]

/-! ## The claims -/

/-- C1: for every projected coordinate within the projected bounds whose
easting and northing are whole meters, encoding yields a grid reference whose
text decodes back to exactly the same coordinate
(`fromGridRef(toGridRef(c).text) == c` at full 1 m precision). -/
theorem claim_C1_roundtrip_coordinate (c : ProjectedCoordinate) (E N : ℕ)
    (hea : c.ea = (E : ℚ)) (hno : c.no = (N : ℚ))
    (hb : (checkBounds (projectedFields c)).valid = true) :
    ∃ r, toGridRef c = some r ∧ fromGridRef r.text = some c := by
  obtain ⟨ea, no⟩ := c
  simp only at hea hno
  subst hea hno
  rw [projectedFields, checkBounds_projected_iff] at hb
  have hE : E < 700000 := by
    have : (E : ℚ) < 700000 := lt_of_le_of_lt hb.2.1 (by norm_num)
    exact_mod_cast this
  have hN : N < 1300000 := by
    have : (N : ℚ) < 1300000 := lt_of_le_of_lt hb.2.2.2 (by norm_num)
    exact_mod_cast this
  obtain ⟨p, c0, c1, hp, hdp, hm0, hm1, heqE, heqN⟩ :=
    prefixLookup_props (N / 100000) (E / 100000) (by omega) (by omega)
  have henc := toGridRef_encode E N hE hN p hp
  refine ⟨_, henc, ?_⟩
  obtain ⟨hl5e, hde, hve⟩ := padStart5_natDigits_spec (E % 100000) (by omega)
  obtain ⟨hl5n, hdn, hvn⟩ := padStart5_natDigits_spec (N % 100000) (by omega)
  set e5 := padStart5 (natDigits (E % 100000)) with he5
  set n5 := padStart5 (natDigits (N % 100000)) with hn5
  have hfg : fromGridRef (String.mk (p.data ++ ' ' :: e5 ++ ' ' :: n5)) =
      fromGridRefL (p.data ++ ' ' :: e5 ++ ' ' :: n5) := rfl
  simp only [hfg]
  have hlist : p.data ++ ' ' :: e5 ++ ' ' :: n5 = c0 :: c1 :: ' ' :: (e5 ++ ' ' :: n5) := by
    rw [hdp]
    simp
  rw [hlist]
  rw [fromGridRef_canonical c0 c1 e5 n5 hm0 hm1 hde hdn (by omega) (by omega) (by omega)]
  have hexp : 5 - e5.length = 0 := by omega
  rw [hexp, hve, hvn]
  have heaq : ((majorEastingOf c0 + minorEastingOf c1 + (E % 100000 : ℕ) * 10 ^ 0 : ℤ) : ℚ) =
      (E : ℚ) := by
    have hz : (majorEastingOf c0 + minorEastingOf c1 + ((E % 100000 : ℕ) : ℤ) * 10 ^ 0 : ℤ) =
        (E : ℤ) := by
      rw [heqE, pow_zero, mul_one]
      omega
    exact_mod_cast hz
  have hnoq : ((majorNorthingOf c0 + minorNorthingOf c1 + (N % 100000 : ℕ) * 10 ^ 0 : ℤ) : ℚ) =
      (N : ℚ) := by
    have hz : (majorNorthingOf c0 + minorNorthingOf c1 + ((N % 100000 : ℕ) : ℤ) * 10 ^ 0 : ℤ) =
        (N : ℤ) := by
      rw [heqN, pow_zero, mul_one]
      omega
    exact_mod_cast hz
  rw [heaq, hnoq]

/-- Witness for C1 at the concrete coordinate (337297, 503695). -/
theorem claim_C1_witness :
    ∃ r, toGridRef ⟨(337297 : ℚ), (503695 : ℚ)⟩ = some r ∧
      fromGridRef r.text = some ⟨(337297 : ℚ), (503695 : ℚ)⟩ :=
  claim_C1_roundtrip_coordinate ⟨(337297 : ℚ), (503695 : ℚ)⟩ 337297 503695
    (by norm_num) (by norm_num)
    (by rw [projectedFields, checkBounds_projected_iff]; norm_num)

/-! ### Small bridges -/

theorem tmod_natCast_five (j : ℕ) : Int.tmod (j : ℤ) 5 = ((j % 5 : ℕ) : ℤ) := rfl

theorem fdiv_natCast_five (j : ℕ) : Int.fdiv (j : ℤ) 5 = ((j / 5 : ℕ) : ℤ) :=
  (Int.ofNat_fdiv j 5).symm

theorem checkBounds_neither (q : CoordinateFields)
    (hpr : q.ea = none ∨ q.no = none) (hge : q.lat = none ∨ q.lng = none) :
    (checkBounds q).valid = true := by
  obtain ⟨ea, no, lat, lng⟩ := q
  simp only at hpr hge
  cases ea <;> cases no <;> cases lat <;> cases lng <;> simp_all [checkBounds]

theorem fromGridRef_eq_none_of_invalid (s : String)
    (h : (validateGridRef (jsTrim s.data)).valid = false) : fromGridRef s = none := by
  simp [fromGridRef, fromGridRefL, h]

/-- C9: `fromGridRef` returns Empty exactly when the trimmed input fails the
letter/digit format check, and every accepted reference yields a fully
populated coordinate even when it lies outside the projected extent:
`"TZ 00000 00000"` decodes to easting 900000. -/
theorem claim_C9_none_iff_invalid :
    (∀ s : String, fromGridRef s = none ↔ (validateGridRef (jsTrim s.data)).valid = false) ∧
    fromGridRef ("TZ 00000 00000") = some ⟨((900000 : ℤ) : ℚ), ((0 : ℤ) : ℚ)⟩ := by
  constructor
  · intro s
    cases h : (validateGridRef (jsTrim s.data)).valid
    · simp [fromGridRef, fromGridRefL, h]
    · simp [fromGridRef, fromGridRefL, h]
  · decide

/-- C2 is false as stated: `"NY 1 234"` has whitespace-separated digit groups
of unequal lengths (1 and 3), yet `fromGridRef` accepts it (the digits are
re-split into two equal halves) and returns a coordinate, not Empty. -/
theorem claim_C2_counterexample :
    fromGridRef ("NY 1 234") = some ⟨((312000 : ℤ) : ℚ), ((534000 : ℤ) : ℚ)⟩ ∧
    fromGridRef ("NY 1 234") ≠ none := by
  constructor
  · decide
  · decide

/-- C2 (amended): a reference whose digit groups are unequal is rejected only
through the parity check: whenever the trimmed input with spaces removed has
odd length (equivalently, the two groups' digit counts sum to an odd number,
as in `"NY 373 0369"`), `fromGridRef` returns Empty before any coordinate
arithmetic. -/
theorem claim_C2_odd_length_rejected (s : String)
    (h : (jsRemoveSpaces (jsTrim s.data)).length % 2 = 1) :
    fromGridRef s = none := by
  have hv : (validateGridRef (jsTrim s.data)).valid = false := by
    simp only [validateGridRef]
    have hb : ((jsRemoveSpaces (jsTrim s.data)).length % 2 == 0) = false := by
      rw [h]
      rfl
    rw [hb]
    rfl
  exact fromGridRef_eq_none_of_invalid s hv

/-- Witness for the amended C2 at the concrete input `"NY 373 0369"`. -/
theorem claim_C2_witness :
    (jsRemoveSpaces (jsTrim ("NY 373 0369").data)).length % 2 = 1 ∧
    fromGridRef ("NY 373 0369") = none :=
  ⟨by decide, claim_C2_odd_length_rejected ("NY 373 0369") (by decide)⟩

/-- C6: the concrete anchor scenarios of the codec. -/
theorem claim_C6_concrete_scenarios :
    (toGridRef ⟨(337297 : ℚ), (503695 : ℚ)⟩).map
        (fun r => (r.text, r.letters, r.eastings, r.northings)) =
      some (("NY 37297 03695"), ("NY"), ("37297"), ("03695")) ∧
    fromGridRef ("NY 37297 03695") = some ⟨(337297 : ℚ), (503695 : ℚ)⟩ ∧
    (toGridRef ⟨(651409 : ℚ), (313177 : ℚ)⟩).map (fun r => r.text) =
      some ("TG 51409 13177") := by
  refine ⟨?_, by decide, ?_⟩
  · have hx : (⌊(337297 : ℚ) / 100000⌋ : ℤ) = 3 := by norm_num
    have hy : (⌊(503695 : ℚ) / 100000⌋ : ℤ) = 5 := by norm_num
    have hb : (checkBounds (projectedFields ⟨(337297 : ℚ), (503695 : ℚ)⟩)).valid = true := by
      rw [projectedFields, checkBounds_projected_iff]
      norm_num
    simp only [toGridRef, hb, hx, hy]
    norm_num
    decide
  · have hx : (⌊(651409 : ℚ) / 100000⌋ : ℤ) = 6 := by norm_num
    have hy : (⌊(313177 : ℚ) / 100000⌋ : ℤ) = 3 := by norm_num
    have hb : (checkBounds (projectedFields ⟨(651409 : ℚ), (313177 : ℚ)⟩)).valid = true := by
      rw [projectedFields, checkBounds_projected_iff]
      norm_num
    simp only [toGridRef, hb, hx, hy]
    norm_num
    decide

/-- C5: `_checkBounds` accepts a projected-shaped input iff easting and
northing lie in the projected rectangle, accepts a geographic-shaped input
iff longitude and latitude lie in the geographic rectangle, reports an input
presenting neither complete field pair as trivially valid, and consequently
`toGridRef` at easting 700000 and `fromLatLng` at latitude 61.0 return
Empty. -/
theorem claim_C5_checkBounds_spec :
    (∀ ea no : ℚ, (checkBounds ⟨some ea, some no, none, none⟩).valid = true ↔
      (0 ≤ ea ∧ ea ≤ 699999.9 ∧ 0 ≤ no ∧ no ≤ 1299999.9)) ∧
    (∀ lat lng : ℚ, (checkBounds ⟨none, none, some lat, some lng⟩).valid = true ↔
      (-8.74 ≤ lng ∧ lng ≤ 1.96 ∧ 49.84 ≤ lat ∧ lat ≤ 60.9)) ∧
    (∀ q : CoordinateFields, (q.ea = none ∨ q.no = none) →
      (q.lat = none ∨ q.lng = none) → (checkBounds q).valid = true) ∧
    (∀ no : ℚ, toGridRef ⟨700000, no⟩ = none) ∧
    (∀ (proj : ℚ × ℚ → ℚ × ℚ) (lng : ℚ) (d : ℕ), fromLatLng proj ⟨61, lng⟩ d = none) := by
  refine ⟨checkBounds_projected_iff, checkBounds_geographic_iff, checkBounds_neither,
    ?_, ?_⟩
  · intro no
    have hb : (checkBounds (projectedFields ⟨(700000 : ℚ), no⟩)).valid = false := by
      rw [projectedFields]
      cases h : (checkBounds ⟨some (700000 : ℚ), some no, none, none⟩).valid
      · rfl
      · rw [checkBounds_projected_iff] at h
        have := h.2.1
        norm_num at this
    simp [toGridRef, hb]
  · intro proj lng d
    have hb : (checkBounds (geographicFields ⟨(61 : ℚ), lng⟩)).valid = false := by
      rw [geographicFields]
      cases h : (checkBounds ⟨none, none, some (61 : ℚ), some lng⟩).valid
      · rfl
      · rw [checkBounds_geographic_iff] at h
        have := h.2.2.2
        norm_num at this
    simp [fromLatLng, hb]

/-- Witness for C5: the neither-shape clause at a concrete partial input. -/
theorem claim_C5_witness :
    (checkBounds ⟨none, some (5 : ℚ), none, none⟩).valid = true :=
  claim_C5_checkBounds_spec.2.2.1 ⟨none, some (5 : ℚ), none, none⟩ (Or.inl rfl) (Or.inl rfl)

/-- C4: on every reference accepted by the format check, `fromGridRef`
computes the coordinate by exactly the specified arithmetic: letter positions
in the 25-letter sequence give the major (500km, with the −1000000/−500000
origin shifts) and minor (100km) tile offsets, and each digit group, scaled
by `10 ^ (5 - i)` for `i` digits per group, gives the offset within the
tile. -/
theorem claim_C4_decode_formula (s : String)
    (h : (validateGridRef (jsTrim s.data)).valid = true) :
    fromGridRef s = some (specDecode (jsRemoveSpaces (jsToUpper (jsTrim s.data)))) := by
  obtain ⟨c0, c1, b, d, href, hm0, hm1, hdb, hdd, hb1, hb5, hd1, hd5⟩ :=
    validateGridRef_inversion (jsTrim s.data) h
  rw [fromGridRef, fromGridRefL_decode s.data c0 c1 (b ++ d) h href, href]
  have hg0 : (c0 :: c1 :: (b ++ d)).getD 0 ' ' = c0 := rfl
  have hg1 : (c0 :: c1 :: (b ++ d)).getD 1 ' ' = c1 := rfl
  have hdrop : (c0 :: c1 :: (b ++ d)).drop 2 = b ++ d := rfl
  have hlen : (c0 :: c1 :: (b ++ d)).length - 2 = (b ++ d).length := by simp
  have hidx0 : jsIndexOf gridLetters c0 = (gridLetters.indexOf c0 : ℤ) := by
    rw [jsIndexOf, if_pos (firstLetters_subset_gridLetters c0 hm0)]
  have hidx1 : jsIndexOf gridLetters c1 = (gridLetters.indexOf c1 : ℤ) := by
    rw [jsIndexOf, if_pos hm1]
  simp only [specDecode, hg0, hg1, hdrop, hlen, majorEastingOf, majorNorthingOf,
    minorEastingOf, minorNorthingOf, hidx0, hidx1, tmod_natCast_five, fdiv_natCast_five]
  norm_cast

/-- Witness for C4 at the concrete reference `"NY 37297 03695"`. -/
theorem claim_C4_witness :
    (validateGridRef (jsTrim ("NY 37297 03695").data)).valid = true ∧
    fromGridRef ("NY 37297 03695") =
      some (specDecode (jsRemoveSpaces (jsToUpper (jsTrim ("NY 37297 03695").data)))) :=
  ⟨by decide, claim_C4_decode_formula ("NY 37297 03695") (by decide)⟩

theorem prefixLookup_isSome : ∀ y < 13, ∀ x < 7, (prefixLookup y x).isSome = true := by
  decide

/-- C8: for every coordinate accepted by the bounds check, the tile indices
`x = ⌊easting / 100000⌋` and `y = ⌊northing / 100000⌋` lie in `[0, 6]` and
`[0, 12]` respectively, the 13×7 table lookup always succeeds, and
`toGridRef` returns a populated result — the out-of-table branch (Empty, not
a crash) is unreachable. -/
theorem claim_C8_lookup_safe (c : ProjectedCoordinate)
    (hb : (checkBounds (projectedFields c)).valid = true) :
    0 ≤ ⌊c.ea / 100000⌋ ∧ ⌊c.ea / 100000⌋ ≤ 6 ∧
    0 ≤ ⌊c.no / 100000⌋ ∧ ⌊c.no / 100000⌋ ≤ 12 ∧
    (prefixLookup (⌊c.no / 100000⌋).toNat (⌊c.ea / 100000⌋).toNat).isSome = true ∧
    (toGridRef c).isSome = true := by
  have hb0 := hb
  obtain ⟨ea, no⟩ := c
  rw [projectedFields] at hb
  simp only at hb
  rw [checkBounds_projected_iff] at hb
  obtain ⟨h1, h2, h3, h4⟩ := hb
  have hx0 : 0 ≤ ⌊ea / 100000⌋ := Int.floor_nonneg.mpr (by positivity)
  have hx6 : ⌊ea / 100000⌋ ≤ 6 := by
    have : ⌊ea / 100000⌋ < 7 := by
      rw [Int.floor_lt]
      rw [div_lt_iff (by norm_num : (0:ℚ) < 100000)]
      have : ea < 700000 := lt_of_le_of_lt h2 (by norm_num)
      push_cast
      linarith
    omega
  have hy0 : 0 ≤ ⌊no / 100000⌋ := Int.floor_nonneg.mpr (by positivity)
  have hy12 : ⌊no / 100000⌋ ≤ 12 := by
    have : ⌊no / 100000⌋ < 13 := by
      rw [Int.floor_lt]
      rw [div_lt_iff (by norm_num : (0:ℚ) < 100000)]
      have : no < 1300000 := lt_of_le_of_lt h4 (by norm_num)
      push_cast
      linarith
    omega
  have hsome : (prefixLookup (⌊no / 100000⌋).toNat (⌊ea / 100000⌋).toNat).isSome = true := by
    apply prefixLookup_isSome
    · omega
    · omega
  refine ⟨hx0, hx6, hy0, hy12, hsome, ?_⟩
  rw [Option.isSome_iff_exists] at hsome
  obtain ⟨p, hp⟩ := hsome
  simp only [toGridRef, hb0, Bool.not_true, Bool.false_eq_true, if_false, hp]
  rfl

/-- Witness for C8 at the concrete coordinate (337297, 503695). -/
theorem claim_C8_witness :
    0 ≤ ⌊(337297 : ℚ) / 100000⌋ ∧ ⌊(337297 : ℚ) / 100000⌋ ≤ 6 ∧
    0 ≤ ⌊(503695 : ℚ) / 100000⌋ ∧ ⌊(503695 : ℚ) / 100000⌋ ≤ 12 ∧
    (prefixLookup (⌊(503695 : ℚ) / 100000⌋).toNat
      (⌊(337297 : ℚ) / 100000⌋).toNat).isSome = true ∧
    (toGridRef ⟨(337297 : ℚ), (503695 : ℚ)⟩).isSome = true :=
  claim_C8_lookup_safe ⟨(337297 : ℚ), (503695 : ℚ)⟩
    (by rw [projectedFields, checkBounds_projected_iff]; norm_num)

theorem toNat_ofNat_valid (n : ℕ) (h : n.isValidChar) : (Char.ofNat n).toNat = n := by
  rw [Char.ofNat, dif_pos h]
  rfl

theorem toUpper_beq_space (c : Char) : (Char.toUpper c == ' ') = (c == ' ') := by
  simp only [Char.toUpper]
  split
  next h =>
    have hv : (Char.toNat c - 32).isValidChar := Or.inl (by omega)
    have ht : (Char.ofNat (Char.toNat c - 32)).toNat = Char.toNat c - 32 :=
      toNat_ofNat_valid _ hv
    have h1 : (Char.ofNat (Char.toNat c - 32) == ' ') = false := by
      rw [beq_eq_false_iff_ne]
      intro he
      rw [he] at ht
      have hsp : (' ' : Char).toNat = 32 := rfl
      omega
    have h2 : (c == ' ') = false := by
      rw [beq_eq_false_iff_ne]
      intro he
      rw [he] at h
      revert h
      decide
    rw [h1, h2]
  next h => rfl

theorem jsRemoveSpaces_jsToUpper_length (g : List Char) :
    (jsRemoveSpaces (jsToUpper g)).length = (jsRemoveSpaces g).length := by
  induction g with
  | nil => rfl
  | cons c t ih =>
    simp only [jsToUpper, List.map_cons] at ih ⊢
    simp only [jsRemoveSpaces, List.filter_cons] at ih ⊢
    rw [toUpper_beq_space c]
    cases hcs : (c == ' ') <;> simp [hcs, ih]

set_option maxHeartbeats 2000000 in
/-- C10: every coordinate returned by `fromGridRef` for a reference with
`2 i` total digits is a pair of non-negative integer multiples of
`10 ^ (5 - i)`, with easting below 1000000 and northing below 1500000. -/
theorem claim_C10_output_invariant (s : String) (c : ProjectedCoordinate)
    (h : fromGridRef s = some c) :
    ∃ i ke kn : ℕ, 2 * i = (jsRemoveSpaces (jsToUpper (jsTrim s.data))).length - 2 ∧
      c.ea = (ke : ℚ) * 10 ^ (5 - i) ∧ c.no = (kn : ℚ) * 10 ^ (5 - i) ∧
      0 ≤ c.ea ∧ c.ea < 1000000 ∧ 0 ≤ c.no ∧ c.no < 1500000 := by
  have hv : (validateGridRef (jsTrim s.data)).valid = true := by
    by_contra hvf
    rw [Bool.not_eq_true] at hvf
    rw [fromGridRef_eq_none_of_invalid s hvf] at h
    exact absurd h (by simp)
  obtain ⟨c0, c1, b, d, href, hm0, hm1, hdb, hdd, hb1, hb5, hd1, hd5⟩ :=
    validateGridRef_inversion (jsTrim s.data) hv
  rw [fromGridRef, fromGridRefL_decode s.data c0 c1 (b ++ d) hv href] at h
  have hc : c = _ := (Option.some_inj.mp h).symm
  subst hc
  have heven : (b ++ d).length % 2 = 0 := by
    have hval := hv
    simp only [validateGridRef, Bool.and_eq_true] at hval
    have hpar : (jsRemoveSpaces (jsTrim s.data)).length % 2 = 0 := by
      exact beq_iff_eq.mp hval.1
    have hlen2 : (jsRemoveSpaces (jsToUpper (jsTrim s.data))).length =
        (jsRemoveSpaces (jsTrim s.data)).length := jsRemoveSpaces_jsToUpper_length _
    rw [href] at hlen2
    simp only [List.length_cons] at hlen2
    omega
  set k := (b ++ d).length / 2 with hk
  have hk5 : k ≤ 5 := by
    have := List.length_append b d
    omega
  have hklen : k ≤ (b ++ d).length := by omega
  have htk : ((b ++ d).take k).length = k := by
    rw [List.length_take]
    omega
  have htdrop : ((b ++ d).drop k).length = k := by
    rw [List.length_drop]
    omega
  have hdigall : ∀ x ∈ b ++ d, isDigitChar x = true := by
    intro x hx
    rw [List.mem_append] at hx
    rw [List.all_eq_true] at hdb hdd
    rcases hx with hx | hx
    · exact hdb x hx
    · exact hdd x hx
  have hdk : ((b ++ d).take k).all isDigitChar = true := by
    rw [List.all_eq_true]
    exact fun x hx => hdigall x (List.take_subset k (b ++ d) hx)
  have hdk' : ((b ++ d).drop k).all isDigitChar = true := by
    rw [List.all_eq_true]
    exact fun x hx => hdigall x (List.drop_subset k (b ++ d) hx)
  set v := digitsToNat ((b ++ d).take k) with hvdef
  set w := digitsToNat ((b ++ d).drop k) with hwdef
  have hv10 : v < 10 ^ k := by
    have := digitsToNat_lt _ hdk
    rw [htk] at this
    exact this
  have hw10 : w < 10 ^ k := by
    have := digitsToNat_lt _ hdk'
    rw [htdrop] at this
    exact this
  obtain ⟨j, hj25, hjeq⟩ : ∃ j : ℕ, j < 25 ∧ jsIndexOf gridLetters c1 = (j : ℤ) := by
    refine ⟨gridLetters.indexOf c1, ?_, ?_⟩
    · have h1 := List.indexOf_lt_length.mpr hm1
      have h2 : gridLetters.length = 25 := rfl
      omega
    · rw [jsIndexOf, if_pos hm1]
  have hminE : minorEastingOf c1 = ((j % 5 : ℕ) : ℤ) * 100000 := by
    rw [minorEastingOf, hjeq, tmod_natCast_five]
  have hminN : minorNorthingOf c1 = ((j / 5 : ℕ) : ℤ) * 100000 := by
    rw [minorNorthingOf, hjeq, fdiv_natCast_five]
  have hc06 : c0 = 'T' ∨ c0 = 'H' ∨ c0 = 'J' ∨ c0 = 'O' ∨ c0 = 'N' ∨ c0 = 'S' := by
    simpa [firstLetters] using hm0
  have hmajE : majorEastingOf c0 = 0 ∨ majorEastingOf c0 = 500000 := by
    rcases hc06 with rfl | rfl | rfl | rfl | rfl | rfl <;> decide
  have hmajN : majorNorthingOf c0 = 0 ∨ majorNorthingOf c0 = 500000 ∨
      majorNorthingOf c0 = 1000000 := by
    rcases hc06 with rfl | rfl | rfl | rfl | rfl | rfl <;> decide
  obtain ⟨B, hB9, hBeq⟩ : ∃ B : ℕ, B ≤ 9 ∧
      majorEastingOf c0 + minorEastingOf c1 = (B : ℤ) * 100000 := by
    rcases hmajE with hE | hE
    · exact ⟨j % 5, by omega, by rw [hE, hminE]; omega⟩
    · refine ⟨5 + j % 5, by omega, ?_⟩
      rw [hE, hminE]
      push_cast
      ring
  obtain ⟨C, hC14, hCeq⟩ : ∃ C : ℕ, C ≤ 14 ∧
      majorNorthingOf c0 + minorNorthingOf c1 = (C : ℤ) * 100000 := by
    rcases hmajN with hN | hN | hN
    · exact ⟨j / 5, by omega, by rw [hN, hminN]; omega⟩
    · refine ⟨5 + j / 5, by omega, ?_⟩
      rw [hN, hminN]
      push_cast
      ring
    · refine ⟨10 + j / 5, by omega, ?_⟩
      rw [hN, hminN]
      push_cast
      ring
  have hpow : (10 : ℤ) ^ k * 10 ^ (5 - k) = 100000 := by
    rw [← pow_add]
    have hsum : k + (5 - k) = 5 := by omega
    rw [hsum]
    norm_num
  have hpowN : 10 ^ k * 10 ^ (5 - k) = 100000 := by
    rw [← pow_add]
    have hsum : k + (5 - k) = 5 := by omega
    rw [hsum]
    norm_num
  have hveq : (majorEastingOf c0 + minorEastingOf c1 + (v : ℤ) * 10 ^ (5 - k) : ℤ) =
      ((B * 10 ^ k + v : ℕ) : ℤ) * 10 ^ (5 - k) := by
    rw [hBeq]
    calc (B : ℤ) * 100000 + (v : ℤ) * 10 ^ (5 - k)
        = (B : ℤ) * ((10 : ℤ) ^ k * 10 ^ (5 - k)) + (v : ℤ) * 10 ^ (5 - k) := by rw [hpow]
      _ = ((B : ℤ) * 10 ^ k + (v : ℤ)) * 10 ^ (5 - k) := by ring
      _ = ((B * 10 ^ k + v : ℕ) : ℤ) * 10 ^ (5 - k) := by push_cast; ring
  have hweq : (majorNorthingOf c0 + minorNorthingOf c1 + (w : ℤ) * 10 ^ (5 - k) : ℤ) =
      ((C * 10 ^ k + w : ℕ) : ℤ) * 10 ^ (5 - k) := by
    rw [hCeq]
    calc (C : ℤ) * 100000 + (w : ℤ) * 10 ^ (5 - k)
        = (C : ℤ) * ((10 : ℤ) ^ k * 10 ^ (5 - k)) + (w : ℤ) * 10 ^ (5 - k) := by rw [hpow]
      _ = ((C : ℤ) * 10 ^ k + (w : ℤ)) * 10 ^ (5 - k) := by ring
      _ = ((C * 10 ^ k + w : ℕ) : ℤ) * 10 ^ (5 - k) := by push_cast; ring
  have hvnat : v * 10 ^ (5 - k) < 100000 := by
    have h1 : v * 10 ^ (5 - k) < 10 ^ k * 10 ^ (5 - k) := by
      have hpos : 0 < 10 ^ (5 - k) := Nat.pos_pow_of_pos _ (by omega)
      exact Nat.mul_lt_mul_of_lt_of_le hv10 (le_refl _) hpos
    omega
  have hwnat : w * 10 ^ (5 - k) < 100000 := by
    have h1 : w * 10 ^ (5 - k) < 10 ^ k * 10 ^ (5 - k) := by
      have hpos : 0 < 10 ^ (5 - k) := Nat.pos_pow_of_pos _ (by omega)
      exact Nat.mul_lt_mul_of_lt_of_le hw10 (le_refl _) hpos
    omega
  refine ⟨k, B * 10 ^ k + v, C * 10 ^ k + w, ?_, ?_, ?_, ?_, ?_, ?_, ?_⟩
  · rw [href]
    simp only [List.length_cons]
    omega
  · show ((majorEastingOf c0 + minorEastingOf c1 + (v : ℤ) * 10 ^ (5 - k) : ℤ) : ℚ) =
        ((B * 10 ^ k + v : ℕ) : ℚ) * 10 ^ (5 - k)
    rw [hveq]
    push_cast
    ring
  · show ((majorNorthingOf c0 + minorNorthingOf c1 + (w : ℤ) * 10 ^ (5 - k) : ℤ) : ℚ) =
        ((C * 10 ^ k + w : ℕ) : ℚ) * 10 ^ (5 - k)
    rw [hweq]
    push_cast
    ring
  · show (0 : ℚ) ≤ ((majorEastingOf c0 + minorEastingOf c1 + (v : ℤ) * 10 ^ (5 - k) : ℤ) : ℚ)
    have hz : (0 : ℤ) ≤ majorEastingOf c0 + minorEastingOf c1 + (v : ℤ) * 10 ^ (5 - k) := by
      rw [hveq]
      positivity
    exact_mod_cast hz
  · show ((majorEastingOf c0 + minorEastingOf c1 + (v : ℤ) * 10 ^ (5 - k) : ℤ) : ℚ) < 1000000
    have hz : (majorEastingOf c0 + minorEastingOf c1 + (v : ℤ) * 10 ^ (5 - k) : ℤ) <
        1000000 := by
      rw [hBeq]
      have h1 : (v : ℤ) * 10 ^ (5 - k) < 100000 := by exact_mod_cast hvnat
      have h2 : (B : ℤ) * 100000 ≤ 900000 := by
        have : (B : ℤ) ≤ 9 := by exact_mod_cast hB9
        nlinarith
      linarith
    exact_mod_cast hz
  · show (0 : ℚ) ≤ ((majorNorthingOf c0 + minorNorthingOf c1 + (w : ℤ) * 10 ^ (5 - k) : ℤ) : ℚ)
    have hz : (0 : ℤ) ≤ majorNorthingOf c0 + minorNorthingOf c1 + (w : ℤ) * 10 ^ (5 - k) := by
      rw [hweq]
      positivity
    exact_mod_cast hz
  · show ((majorNorthingOf c0 + minorNorthingOf c1 + (w : ℤ) * 10 ^ (5 - k) : ℤ) : ℚ) < 1500000
    have hz : (majorNorthingOf c0 + minorNorthingOf c1 + (w : ℤ) * 10 ^ (5 - k) : ℤ) <
        1500000 := by
      rw [hCeq]
      have h1 : (w : ℤ) * 10 ^ (5 - k) < 100000 := by exact_mod_cast hwnat
      have h2 : (C : ℤ) * 100000 ≤ 1400000 := by
        have : (C : ℤ) ≤ 14 := by exact_mod_cast hC14
        nlinarith
      linarith
    exact_mod_cast hz

/-- Witness for C10 at the accepted reference `"NY 1 234"`. -/
theorem claim_C10_witness :
    ∃ i ke kn : ℕ,
      2 * i = (jsRemoveSpaces (jsToUpper (jsTrim ("NY 1 234").data))).length - 2 ∧
      (⟨((312000 : ℤ) : ℚ), ((534000 : ℤ) : ℚ)⟩ : ProjectedCoordinate).ea =
        (ke : ℚ) * 10 ^ (5 - i) ∧
      (⟨((312000 : ℤ) : ℚ), ((534000 : ℤ) : ℚ)⟩ : ProjectedCoordinate).no =
        (kn : ℚ) * 10 ^ (5 - i) ∧
      0 ≤ (⟨((312000 : ℤ) : ℚ), ((534000 : ℤ) : ℚ)⟩ : ProjectedCoordinate).ea ∧
      (⟨((312000 : ℤ) : ℚ), ((534000 : ℤ) : ℚ)⟩ : ProjectedCoordinate).ea < 1000000 ∧
      0 ≤ (⟨((312000 : ℤ) : ℚ), ((534000 : ℤ) : ℚ)⟩ : ProjectedCoordinate).no ∧
      (⟨((312000 : ℤ) : ℚ), ((534000 : ℤ) : ℚ)⟩ : ProjectedCoordinate).no < 1500000 :=
  claim_C10_output_invariant ("NY 1 234") ⟨((312000 : ℤ) : ℚ), ((534000 : ℤ) : ℚ)⟩
    (by decide)

theorem mul_cancel_unique (P a b c : ℕ) (hc : c < P) (h : a * P = b * P + c) :
    b = a ∧ c = 0 := by
  rcases Nat.lt_trichotomy b a with hlt | heq | hgt
  · have h1 : b * P + P ≤ a * P := by
      have h2 : b + 1 ≤ a := hlt
      calc b * P + P = (b + 1) * P := by ring
        _ ≤ a * P := Nat.mul_le_mul_right P h2
    omega
  · constructor
    · exact heq
    · rw [heq] at h
      omega
  · have h1 : a * P + P ≤ b * P := by
      have h2 : a + 1 ≤ b := hgt
      calc a * P + P = (a + 1) * P := by ring
        _ ≤ b * P := Nat.mul_le_mul_right P h2
    omega

/-- C3 is false as stated: `"NY3729703695"` is a full-precision (5+5 digit)
reference text accepted by the format check, but re-encoding its decoded
coordinate yields the canonically spaced text `"NY 37297 03695"`, not the
original text. -/
theorem claim_C3_counterexample :
    fromGridRef ("NY3729703695") = some ⟨(337297 : ℚ), (503695 : ℚ)⟩ ∧
    (toGridRef ⟨(337297 : ℚ), (503695 : ℚ)⟩).map (fun r => r.text) =
      some ("NY 37297 03695") ∧
    ("NY 37297 03695" : String) ≠ ("NY3729703695" : String) := by
  refine ⟨by decide, ?_, by decide⟩
  have hx : (⌊(337297 : ℚ) / 100000⌋ : ℤ) = 3 := by norm_num
  have hy : (⌊(503695 : ℚ) / 100000⌋ : ℤ) = 5 := by norm_num
  have hb : (checkBounds (projectedFields ⟨(337297 : ℚ), (503695 : ℚ)⟩)).valid = true := by
    rw [projectedFields, checkBounds_projected_iff]
    norm_num
  simp only [toGridRef, hb, hx, hy]
  norm_num
  decide

/-- C3 (amended): for every full-precision grid reference text in canonical
form — a letter pair drawn from the 13×7 tile table, single spaces, and two
5-digit groups — re-encoding the decoded coordinate reproduces the identical
text. -/
theorem claim_C3_text_roundtrip (y x : ℕ) (hy : y < 13) (hx : x < 7) (p : String)
    (hp : prefixLookup y x = some p) (g1 g2 : List Char)
    (h1 : g1.all isDigitChar = true) (h2 : g2.all isDigitChar = true)
    (l1 : g1.length = 5) (l2 : g2.length = 5) :
    ∃ c r, fromGridRef (String.mk (p.data ++ ' ' :: (g1 ++ ' ' :: g2))) = some c ∧
      toGridRef c = some r ∧
      r.text = String.mk (p.data ++ ' ' :: (g1 ++ ' ' :: g2)) := by
  obtain ⟨p', c0, c1, hp', hdp, hm0, hm1, heqE, heqN⟩ := prefixLookup_props y x hy hx
  have hpp : p' = p := by
    rw [hp] at hp'
    exact (Option.some_inj.mp hp').symm
  subst hpp
  have hten : (10 : ℕ) ^ 5 = 100000 := by norm_num
  have hv1 : digitsToNat g1 < 100000 := by
    have := digitsToNat_lt g1 h1
    rw [l1, hten] at this
    exact this
  have hv2 : digitsToNat g2 < 100000 := by
    have := digitsToNat_lt g2 h2
    rw [l2, hten] at this
    exact this
  have hlist : p'.data ++ ' ' :: (g1 ++ ' ' :: g2) = c0 :: c1 :: ' ' :: (g1 ++ ' ' :: g2) := by
    rw [hdp]
    rfl
  have hfg : fromGridRef (String.mk (p'.data ++ ' ' :: (g1 ++ ' ' :: g2))) =
      fromGridRefL (p'.data ++ ' ' :: (g1 ++ ' ' :: g2)) := rfl
  rw [hfg, hlist,
    fromGridRef_canonical c0 c1 g1 g2 hm0 hm1 h1 h2 (by omega) (by omega) (by omega)]
  have hXe : ((majorEastingOf c0 + minorEastingOf c1 +
      (digitsToNat g1) * 10 ^ (5 - g1.length) : ℤ) : ℚ) =
      (((100000 * x + digitsToNat g1 : ℕ)) : ℚ) := by
    have hz : (majorEastingOf c0 + minorEastingOf c1 +
        (digitsToNat g1) * 10 ^ (5 - g1.length) : ℤ) =
        ((100000 * x + digitsToNat g1 : ℕ) : ℤ) := by
      rw [l1, show (5 : ℕ) - 5 = 0 from rfl, pow_zero, mul_one, heqE]
      push_cast
      ring
    exact_mod_cast hz
  have hXn : ((majorNorthingOf c0 + minorNorthingOf c1 +
      (digitsToNat g2) * 10 ^ (5 - g1.length) : ℤ) : ℚ) =
      (((100000 * y + digitsToNat g2 : ℕ)) : ℚ) := by
    have hz : (majorNorthingOf c0 + minorNorthingOf c1 +
        (digitsToNat g2) * 10 ^ (5 - g1.length) : ℤ) =
        ((100000 * y + digitsToNat g2 : ℕ) : ℤ) := by
      rw [l1, show (5 : ℕ) - 5 = 0 from rfl, pow_zero, mul_one, heqN]
      push_cast
      ring
    exact_mod_cast hz
  rw [hXe, hXn]
  have hE : 100000 * x + digitsToNat g1 < 700000 := by omega
  have hN : 100000 * y + digitsToNat g2 < 1300000 := by omega
  have hEdiv : (100000 * x + digitsToNat g1) / 100000 = x := by omega
  have hNdiv : (100000 * y + digitsToNat g2) / 100000 = y := by omega
  have hEmod : (100000 * x + digitsToNat g1) % 100000 = digitsToNat g1 := by omega
  have hNmod : (100000 * y + digitsToNat g2) % 100000 = digitsToNat g2 := by omega
  have hpEN : prefixLookup ((100000 * y + digitsToNat g2) / 100000)
      ((100000 * x + digitsToNat g1) / 100000) = some p' := by
    rw [hEdiv, hNdiv]
    exact hp
  have henc := toGridRef_encode (100000 * x + digitsToNat g1)
    (100000 * y + digitsToNat g2) hE hN p' hpEN
  rw [hEmod, hNmod] at henc
  have hpe : padStart5 (natDigits (digitsToNat g1)) = g1 := by
    obtain ⟨hL, hD, hV⟩ := padStart5_natDigits_spec (digitsToNat g1) hv1
    exact digits_unique _ _ hD h1 (by rw [hL, l1]) (by rw [hV])
  have hpn : padStart5 (natDigits (digitsToNat g2)) = g2 := by
    obtain ⟨hL, hD, hV⟩ := padStart5_natDigits_spec (digitsToNat g2) hv2
    exact digits_unique _ _ hD h2 (by rw [hL, l2]) (by rw [hV])
  rw [hpe, hpn] at henc
  refine ⟨_, _, rfl, henc, ?_⟩
  show String.mk (p'.data ++ ' ' :: g1 ++ ' ' :: g2) = _
  congr 1
  rw [hdp]
  simp

/-- Witness for the amended C3 at the tile `NY` with groups 37297 / 03695. -/
theorem claim_C3_witness :
    ∃ c r, fromGridRef (String.mk (("NY").data ++ ' ' ::
        ((['3','7','2','9','7'] : List Char) ++ ' ' :: (['0','3','6','9','5'] : List Char)))) =
        some c ∧
      toGridRef c = some r ∧
      r.text = String.mk (("NY").data ++ ' ' ::
        ((['3','7','2','9','7'] : List Char) ++ ' ' :: (['0','3','6','9','5'] : List Char))) :=
  claim_C3_text_roundtrip 5 3 (by omega) (by omega) ("NY") (by decide)
    ['3','7','2','9','7'] ['0','3','6','9','5'] (by decide) (by decide) rfl rfl

/-- C7 is false as stated: `"TZ 1 1"` is a format-valid truncated reference
(1 digit per group), but its decoded coordinate (910000, 10000) lies outside
the projected extent, so the re-encoding returns Empty and no eastings string
exists to carry the original digits as a prefix. -/
theorem claim_C7_counterexample :
    fromGridRef ("TZ 1 1") = some ⟨(910000 : ℚ), (10000 : ℚ)⟩ ∧
    toGridRef ⟨(910000 : ℚ), (10000 : ℚ)⟩ = none := by
  refine ⟨by decide, ?_⟩
  have hb : (checkBounds (projectedFields ⟨(910000 : ℚ), (10000 : ℚ)⟩)).valid = false := by
    rw [projectedFields]
    cases h : (checkBounds ⟨some (910000 : ℚ), some (10000 : ℚ), none, none⟩).valid
    · rfl
    · rw [checkBounds_projected_iff] at h
      have := h.2.1
      norm_num at this
  simp [toGridRef, hb]

set_option maxHeartbeats 1000000 in
/-- C7 (amended): for every truncated grid reference in canonical form whose
letter pair appears in the 13×7 tile table (equivalently, whose decoded
coordinate passes the bounds check), with `k < 5` digits per group, the
decoded coordinate re-encodes to a result whose 5-digit eastings string has
the original easting digits as its prefix, and likewise for northings. -/
theorem claim_C7_truncation_monotone (y x k : ℕ) (hy : y < 13) (hx : x < 7)
    (hk1 : 1 ≤ k) (hk5 : k ≤ 5) (p : String) (hp : prefixLookup y x = some p)
    (g1 g2 : List Char)
    (h1 : g1.all isDigitChar = true) (h2 : g2.all isDigitChar = true)
    (l1 : g1.length = k) (l2 : g2.length = k) :
    ∃ c r, fromGridRef (String.mk (p.data ++ ' ' :: (g1 ++ ' ' :: g2))) = some c ∧
      toGridRef c = some r ∧
      r.eastings.data.take k = g1 ∧ r.northings.data.take k = g2 := by
  obtain ⟨p', c0, c1, hp', hdp, hm0, hm1, heqE, heqN⟩ := prefixLookup_props y x hy hx
  have hpp : p' = p := by
    rw [hp] at hp'
    exact (Option.some_inj.mp hp').symm
  subst hpp
  have hpos : 0 < 10 ^ (5 - k) := Nat.pos_pow_of_pos _ (by omega)
  have hpowN : 10 ^ k * 10 ^ (5 - k) = 100000 := by
    rw [← pow_add]
    have hsum : k + (5 - k) = 5 := by omega
    rw [hsum]
    norm_num
  have hv1 : digitsToNat g1 < 10 ^ k := by
    have := digitsToNat_lt g1 h1
    rw [l1] at this
    exact this
  have hv2 : digitsToNat g2 < 10 ^ k := by
    have := digitsToNat_lt g2 h2
    rw [l2] at this
    exact this
  have ht1 : digitsToNat g1 * 10 ^ (5 - k) < 100000 := by
    have h1' : digitsToNat g1 * 10 ^ (5 - k) < 10 ^ k * 10 ^ (5 - k) :=
      Nat.mul_lt_mul_of_lt_of_le hv1 (le_refl _) hpos
    omega
  have ht2 : digitsToNat g2 * 10 ^ (5 - k) < 100000 := by
    have h2' : digitsToNat g2 * 10 ^ (5 - k) < 10 ^ k * 10 ^ (5 - k) :=
      Nat.mul_lt_mul_of_lt_of_le hv2 (le_refl _) hpos
    omega
  have hlist : p'.data ++ ' ' :: (g1 ++ ' ' :: g2) = c0 :: c1 :: ' ' :: (g1 ++ ' ' :: g2) := by
    rw [hdp]
    rfl
  have hfg : fromGridRef (String.mk (p'.data ++ ' ' :: (g1 ++ ' ' :: g2))) =
      fromGridRefL (p'.data ++ ' ' :: (g1 ++ ' ' :: g2)) := rfl
  rw [hfg, hlist,
    fromGridRef_canonical c0 c1 g1 g2 hm0 hm1 h1 h2 (by omega) (by omega) (by omega)]
  have hXe : ((majorEastingOf c0 + minorEastingOf c1 +
      (digitsToNat g1) * 10 ^ (5 - g1.length) : ℤ) : ℚ) =
      (((100000 * x + digitsToNat g1 * 10 ^ (5 - k) : ℕ)) : ℚ) := by
    have hz : (majorEastingOf c0 + minorEastingOf c1 +
        (digitsToNat g1) * 10 ^ (5 - g1.length) : ℤ) =
        ((100000 * x + digitsToNat g1 * 10 ^ (5 - k) : ℕ) : ℤ) := by
      rw [l1, heqE]
      push_cast
      ring
    exact_mod_cast hz
  have hXn : ((majorNorthingOf c0 + minorNorthingOf c1 +
      (digitsToNat g2) * 10 ^ (5 - g1.length) : ℤ) : ℚ) =
      (((100000 * y + digitsToNat g2 * 10 ^ (5 - k) : ℕ)) : ℚ) := by
    have hz : (majorNorthingOf c0 + minorNorthingOf c1 +
        (digitsToNat g2) * 10 ^ (5 - g1.length) : ℤ) =
        ((100000 * y + digitsToNat g2 * 10 ^ (5 - k) : ℕ) : ℤ) := by
      rw [l1, heqN]
      push_cast
      ring
    exact_mod_cast hz
  rw [hXe, hXn]
  have hE : 100000 * x + digitsToNat g1 * 10 ^ (5 - k) < 700000 := by omega
  have hN : 100000 * y + digitsToNat g2 * 10 ^ (5 - k) < 1300000 := by omega
  have hEdiv : (100000 * x + digitsToNat g1 * 10 ^ (5 - k)) / 100000 = x := by omega
  have hNdiv : (100000 * y + digitsToNat g2 * 10 ^ (5 - k)) / 100000 = y := by omega
  have hEmod : (100000 * x + digitsToNat g1 * 10 ^ (5 - k)) % 100000 =
      digitsToNat g1 * 10 ^ (5 - k) := by omega
  have hNmod : (100000 * y + digitsToNat g2 * 10 ^ (5 - k)) % 100000 =
      digitsToNat g2 * 10 ^ (5 - k) := by omega
  have hpEN : prefixLookup ((100000 * y + digitsToNat g2 * 10 ^ (5 - k)) / 100000)
      ((100000 * x + digitsToNat g1 * 10 ^ (5 - k)) / 100000) = some p' := by
    rw [hEdiv, hNdiv]
    exact hp
  have henc := toGridRef_encode (100000 * x + digitsToNat g1 * 10 ^ (5 - k))
    (100000 * y + digitsToNat g2 * 10 ^ (5 - k)) hE hN p' hpEN
  rw [hEmod, hNmod] at henc
  refine ⟨_, _, rfl, henc, ?_, ?_⟩
  · show (padStart5 (natDigits (digitsToNat g1 * 10 ^ (5 - k)))).take k = g1
    obtain ⟨hL, hD, hV⟩ := padStart5_natDigits_spec (digitsToNat g1 * 10 ^ (5 - k)) ht1
    set W := padStart5 (natDigits (digitsToNat g1 * 10 ^ (5 - k))) with hW
    have htakeLen : (W.take k).length = k := by
      rw [List.length_take]
      omega
    have hdropLen : (W.drop k).length = 5 - k := by
      rw [List.length_drop]
      omega
    have hDW : digitsToNat W = digitsToNat (W.take k) * 10 ^ (5 - k) +
        digitsToNat (W.drop k) := by
      conv_lhs => rw [← List.take_append_drop k W]
      rw [digitsToNat_append, hdropLen]
    have hdigtake : (W.take k).all isDigitChar = true := by
      rw [List.all_eq_true] at hD ⊢
      exact fun ch hch => hD ch (List.take_subset k W hch)
    have hdigdrop : (W.drop k).all isDigitChar = true := by
      rw [List.all_eq_true] at hD ⊢
      exact fun ch hch => hD ch (List.drop_subset k W hch)
    have hdropLt : digitsToNat (W.drop k) < 10 ^ (5 - k) := by
      have := digitsToNat_lt _ hdigdrop
      rw [hdropLen] at this
      exact this
    have heq : digitsToNat g1 * 10 ^ (5 - k) =
        digitsToNat (W.take k) * 10 ^ (5 - k) + digitsToNat (W.drop k) := by
      rw [← hDW, hV]
    obtain ⟨hval, _⟩ := mul_cancel_unique (10 ^ (5 - k)) (digitsToNat g1)
      (digitsToNat (W.take k)) (digitsToNat (W.drop k)) hdropLt heq
    exact digits_unique (W.take k) g1 hdigtake h1 (by rw [htakeLen, l1]) (by rw [hval])
  · show (padStart5 (natDigits (digitsToNat g2 * 10 ^ (5 - k)))).take k = g2
    obtain ⟨hL, hD, hV⟩ := padStart5_natDigits_spec (digitsToNat g2 * 10 ^ (5 - k)) ht2
    set W := padStart5 (natDigits (digitsToNat g2 * 10 ^ (5 - k))) with hW
    have htakeLen : (W.take k).length = k := by
      rw [List.length_take]
      omega
    have hdropLen : (W.drop k).length = 5 - k := by
      rw [List.length_drop]
      omega
    have hDW : digitsToNat W = digitsToNat (W.take k) * 10 ^ (5 - k) +
        digitsToNat (W.drop k) := by
      conv_lhs => rw [← List.take_append_drop k W]
      rw [digitsToNat_append, hdropLen]
    have hdigtake : (W.take k).all isDigitChar = true := by
      rw [List.all_eq_true] at hD ⊢
      exact fun ch hch => hD ch (List.take_subset k W hch)
    have hdigdrop : (W.drop k).all isDigitChar = true := by
      rw [List.all_eq_true] at hD ⊢
      exact fun ch hch => hD ch (List.drop_subset k W hch)
    have hdropLt : digitsToNat (W.drop k) < 10 ^ (5 - k) := by
      have := digitsToNat_lt _ hdigdrop
      rw [hdropLen] at this
      exact this
    have heq : digitsToNat g2 * 10 ^ (5 - k) =
        digitsToNat (W.take k) * 10 ^ (5 - k) + digitsToNat (W.drop k) := by
      rw [← hDW, hV]
    obtain ⟨hval, _⟩ := mul_cancel_unique (10 ^ (5 - k)) (digitsToNat g2)
      (digitsToNat (W.take k)) (digitsToNat (W.drop k)) hdropLt heq
    exact digits_unique (W.take k) g2 hdigtake h2 (by rw [htakeLen, l2]) (by rw [hval])

/-- Witness for the amended C7 at the tile `NY` with 3-digit groups 373 / 036. -/
theorem claim_C7_witness :
    ∃ c r, fromGridRef (String.mk (("NY").data ++ ' ' ::
        ((['3','7','3'] : List Char) ++ ' ' :: (['0','3','6'] : List Char)))) = some c ∧
      toGridRef c = some r ∧
      r.eastings.data.take 3 = (['3','7','3'] : List Char) ∧
      r.northings.data.take 3 = (['0','3','6'] : List Char) :=
  claim_C7_truncation_monotone 5 3 3 (by omega) (by omega) (by omega) (by omega)
    ("NY") (by decide) ['3','7','3'] ['0','3','6'] (by decide) (by decide) rfl rfl
